import Mathlib

/-!
Shallow embedding of the paper-trading matching and settlement engine of
`paper-trading-sh` (order.service.ts, user.service.ts, exchange/utils.ts,
order/utils.ts) over exact rational arithmetic.

Modelling conventions:
* JavaScript numbers are modelled as `ℚ`; timestamps as `ℤ` (milliseconds).
* Mongo collections and JS `Map`s are modelled as association lists; a
  `Map.set` replaces the first matching key or appends, `Map.delete` filters.
* `findOneAndUpdate` updates the first matching document.
* Fallible service calls return `Except SvcError`; an uncaught JS `TypeError`
  (property access on `null`) is the `SvcError.typeErr` constructor.
* The signature string `${bestAsk}${bestBid}${bestAskQnt}${bestBidQnt}${price}`
  is modelled as the 5-tuple of its components (tuple equality implies string
  equality, which is the only direction the dedup logic uses).
-/

inductive OrderSide
  | BUY
  | SELL
deriving DecidableEq

inductive OrderType
  | LIMIT
  | MARKET
deriving DecidableEq

/-- `OrderStatus` from order.schema.ts; `CREATED` carries the wire value
`"NEW"`. -/
inductive OrderStatus
  | CREATED
  | FILLED
  | PARTIALLY_FILLED
  | CANCELED
  | EXPIRED
deriving DecidableEq

inductive PositionSide
  | both
  | long
  | short
deriving DecidableEq

inductive PositionStatus
  | new
  | closed
deriving DecidableEq

/-- `ExchangeEnum` from exchange/types.ts. -/
inductive ExchangeEnum
  | binance
  | kucoin
  | kucoinLinear
  | kucoinInverse
  | ftx
  | bybit
  | binanceCoinm
  | binanceUsdm
  | bybitCoinm
  | bybitUsdm
  | okx
  | okxLinear
  | okxInverse
  | coinbase
  | bitget
  | bitgetCoinm
  | bitgetUsdm
  | mexc
  | hyperliquid
  | hyperliquidInverse
deriving DecidableEq

/-- exchange/utils.ts `isFutures`. -/
def isFutures (exchange : ExchangeEnum) : Bool :=
  [ExchangeEnum.binanceCoinm, ExchangeEnum.binanceUsdm, ExchangeEnum.bybitCoinm,
    ExchangeEnum.bybitUsdm, ExchangeEnum.okxLinear, ExchangeEnum.okxInverse,
    ExchangeEnum.kucoinLinear, ExchangeEnum.kucoinInverse,
    ExchangeEnum.bitgetCoinm, ExchangeEnum.bitgetUsdm].contains exchange

/-- exchange/utils.ts `isCoinm`. -/
def isCoinm (exchange : ExchangeEnum) : Bool :=
  [ExchangeEnum.binanceCoinm, ExchangeEnum.bybitCoinm, ExchangeEnum.okxInverse,
    ExchangeEnum.kucoinInverse, ExchangeEnum.bitgetCoinm].contains exchange

def spotMakerFee : ℚ := 1 / 1000

def usdmMakerFee : ℚ := 2 / 10000

def coinmMakerFee : ℚ := 1 / 10000

inductive FeeType
  | maker
  | taker
deriving DecidableEq

/-- order.service.ts `getUserFee`. -/
def getUserFee (t : FeeType) (exchange : ExchangeEnum) : ℚ :=
  match t with
  | .maker =>
    if isFutures exchange then
      if isCoinm exchange then coinmMakerFee else usdmMakerFee
    else spotMakerFee
  | .taker =>
    if isFutures exchange then
      if isCoinm exchange then coinmMakerFee * 5 else usdmMakerFee * 2
    else spotMakerFee

/-- order.service.ts `liquidationPrice`. -/
def liquidationPrice (entryPrice : ℚ) (position : PositionSide) (fee : ℚ)
    (leverage : ℚ) : ℚ :=
  entryPrice *
    (if 1 < leverage then
      (1 + 1 / leverage * (if position = PositionSide.long then -1 else 1)) *
        (1 + fee * (if position = PositionSide.long then -1 else 1))
    else if position = PositionSide.long then fee
    else 1 / fee)

/-- `Number.EPSILON` (2⁻⁵²). -/
def numberEPSILON : ℚ := 1 / 2 ^ 52

/-- MathHelper.round from utils/math.ts: half-up rounding at a given number of
decimal places (the source routes through decimal strings to dodge binary
floating point; over exact rationals that is plain half-up rounding, and
`Math.round` rounds halves toward positive infinity, i.e. the floor of
`x + 1/2`, computed here as `num.fdiv den`, the floor of a rational with
positive denominator). -/
def mathRound (x : ℚ) (precision : ℕ) : ℚ :=
  let y := x * 10 ^ precision + 1 / 2
  ((y.num.fdiv y.den : ℤ) : ℚ) / 10 ^ precision

/-- Association-list lookup (JS `Map.get`). -/
def alGet {κ ν : Type} [DecidableEq κ] (l : List (κ × ν)) (k : κ) : Option ν :=
  (l.find? (fun p => p.1 = k)).map Prod.snd

/-- Association-list update (JS `Map.set`): replace the first binding of the
key, or append a new binding. -/
def alSet {κ ν : Type} [DecidableEq κ] : List (κ × ν) → κ → ν → List (κ × ν)
  | [], k, v => [(k, v)]
  | p :: ps, k, v =>
    if p.1 = k then (k, v) :: ps else p :: alSet ps k v

/-- Association-list removal (JS `Map.delete`). -/
def alDelete {κ ν : Type} [DecidableEq κ] (l : List (κ × ν)) (k : κ) :
    List (κ × ν) :=
  l.filter (fun p => ¬p.1 = k)

/-- A JS `number | null | undefined` is falsy when absent or zero. -/
def jsFalsy (o : Option ℚ) : Bool :=
  match o with
  | none => true
  | some q => q = 0

/-- OrderDataType from order.schema.ts.  `user` is the canonical user id
string; `id`/`_id` is a numeric document id; `reduceOnly : Bool` collapses
the JS `boolean | undefined` by its truthiness. -/
structure OrderData where
  id : ℕ
  amount : ℚ
  filledAmount : ℚ
  filledQuoteAmount : ℚ
  quoteAmount : ℚ
  price : ℚ
  avgFilledPrice : ℚ
  fee : ℚ
  feePerc : Option ℚ
  symbol : String
  user : String
  exchange : ExchangeEnum
  status : OrderStatus
  type : OrderType
  side : OrderSide
  externalId : String
  createdAt : ℤ
  updatedAt : ℤ
  reduceOnly : Bool
  positionSide : Option PositionSide
deriving DecidableEq

/-- LocalPosition / PositionDataType from positions.schema.ts.  `id` is the
document id (the watch-set holder id for positions); `uuid` is modelled as a
number drawn from the fresh-id counter. -/
structure LocalPosition where
  id : ℕ
  symbol : String
  margin : ℚ
  entryPrice : ℚ
  closePrice : ℚ
  liquidationPrice : ℚ
  positionSide : PositionSide
  positionAmt : ℚ
  user : String
  exchange : ExchangeEnum
  createdAt : ℤ
  updatedAt : ℤ
  status : PositionStatus
  profit : ℚ
  fee : ℚ
  leverage : ℚ
  uuid : ℕ
deriving DecidableEq

/-- A wallet document: `{userId, asset, free, locked}`. -/
structure WalletRow where
  user : String
  asset : String
  free : ℚ
  locked : ℚ
deriving DecidableEq

/-- A leverage document: `{user, symbol, side, leverage, locked}` (the `side`
field may be missing, mirroring a dto whose `positionSide` was absent). -/
structure LeverageRec where
  user : String
  symbol : String
  side : Option PositionSide
  leverage : ℚ
  locked : Bool
deriving DecidableEq

/-- The fields used by the engine from `ExchangeInfo` (symbol cache). -/
structure SymbolInfo where
  baseAssetName : String
  baseMinAmount : ℚ
  quoteAssetName : String
  quoteMinAmount : ℚ
deriving DecidableEq

/-- A holder id in the watch set: an order's externalId or a position's
document id (both live in one JS `Set<string>`; the two id spaces are
disjoint). -/
inductive WatchId
  | order (externalId : String)
  | position (docId : ℕ)
deriving DecidableEq

/-- The five fields hashed into the per-symbol ticker signature. -/
structure TickSig where
  bestAsk : ℚ
  bestBid : ℚ
  bestAskQnt : ℚ
  bestBidQnt : ℚ
  price : ℚ
deriving DecidableEq

/-- A decoded pub/sub ticker (exchange/types.ts `Ticker`). -/
structure Ticker where
  bestAsk : ℚ
  bestBid : ℚ
  bestAskQnt : ℚ
  bestBidQnt : ℚ
  symbol : String
  time : ℤ
  price : ℚ
  eventTime : Option ℤ
deriving DecidableEq

/-- A coalesced tick handed to the matching engine (exchange/types.ts
`Tick`). -/
structure Tick where
  bestBid : ℚ
  bestAsk : ℚ
  bidQty : ℚ
  askQty : ℚ
  time : ℤ
deriving DecidableEq

/-- The engine state: durable collections plus the in-memory projection,
watch set and ticker caches of `OrderService`.  The single string-keyed
`tickerTimeMap` is split into its exchange-keyed and symbol@exchange-keyed
entries (the two key shapes never collide as strings). -/
structure MState where
  wallets : List WalletRow
  ordersDb : List OrderData
  positionsDb : List LocalPosition
  leverages : List LeverageRec
  hedges : List (String × Bool)
  currentOrders : List OrderData
  currentPositions : List LocalPosition
  watch : List ((String × ExchangeEnum) × List WatchId)
  symbolPrice : List ((String × ExchangeEnum) × Option ℚ)
  tickerTimeEx : List (ExchangeEnum × ℤ)
  tickerTimeSym : List ((String × ExchangeEnum) × ℤ)
  tickerSignature : List ((String × ExchangeEnum) × TickSig)
  nextId : ℕ
deriving DecidableEq

/-- Read-only collaborators of the engine (credential store, symbol service,
external latest-price service) together with the current clock. -/
structure Env where
  now : ℤ
  findUser : String → String → Option String
  getSymbol : String → ExchangeEnum → Option SymbolInfo
  latestPriceData : String → ExchangeEnum → Option ℚ

inductive SvcError
  | http (message : String) (status : ℕ)
  | typeErr (message : String)
deriving DecidableEq

structure CreateOrderResponse where
  orderId : ℕ
  status : OrderStatus
deriving DecidableEq

/-- order/order.controller.ts `CreateOrderDto`. -/
structure CreateOrderDto where
  key : String
  secret : String
  symbol : String
  amount : ℚ
  type : OrderType
  exchange : ExchangeEnum
  side : OrderSide
  externalId : String
  price : ℚ
  reduceOnly : Bool
  positionSide : Option PositionSide
deriving DecidableEq

/-- One `{asset, free, locked}` increment handed to `updateBalance`. -/
structure BalanceUpd where
  asset : String
  free : ℚ
  locked : ℚ
deriving DecidableEq

/-- user.service.ts `increaseUserBalance` for a single update: an unguarded
`findOneAndUpdate` with `$inc` on `{free, locked}` and `upsert: true` (the
balance floor that once guarded the query is commented out in the source). -/
def walletInc : List WalletRow → String → String → ℚ → ℚ → List WalletRow
  | [], user, asset, dFree, dLocked => [⟨user, asset, dFree, dLocked⟩]
  | w :: ws, user, asset, dFree, dLocked =>
    if w.user = user ∧ w.asset = asset then
      { w with free := w.free + dFree, locked := w.locked + dLocked } :: ws
    else w :: walletInc ws user asset dFree dLocked

/-- `increaseUserBalance` over a list of updates (order.service.ts
`updateBalance` forwards to it; the push-channel notification is dropped). -/
def increaseUserBalance (wallets : List WalletRow) (user : String)
    (updates : List BalanceUpd) : List WalletRow :=
  updates.foldl (fun acc u => walletInc acc user u.asset u.free u.locked) wallets

def lookupWallet (wallets : List WalletRow) (user asset : String) :
    Option WalletRow :=
  wallets.find? (fun w => w.user = user ∧ w.asset = asset)

/-- order.service.ts `setOrder` (projection write, keyed by
`(symbol, externalId)`): replace the first record with the same key or
append. -/
def setOrderProj : List OrderData → OrderData → List OrderData
  | [], o => [o]
  | p :: ps, o =>
    if p.symbol = o.symbol ∧ p.externalId = o.externalId then o :: ps
    else p :: setOrderProj ps o

/-- order.service.ts `removeOrder` / the inline projection delete. -/
def removeOrderProj (l : List OrderData) (symbol externalId : String) :
    List OrderData :=
  l.filter (fun o => ¬(o.symbol = symbol ∧ o.externalId = externalId))

/-- order.service.ts `setPosition` (projection write, keyed by
`(symbol, uuid)`). -/
def setPositionProj : List LocalPosition → LocalPosition → List LocalPosition
  | [], p => [p]
  | q :: qs, p =>
    if q.symbol = p.symbol ∧ q.uuid = p.uuid then p :: qs
    else q :: setPositionProj qs p

/-- order.service.ts `removePosition`. -/
def removePositionProj (l : List LocalPosition) (symbol : String) (uuid : ℕ) :
    List LocalPosition :=
  l.filter (fun p => ¬(p.symbol = symbol ∧ p.uuid = uuid))

/-- order/utils.ts `getOrdersBySymbols`: per requested symbol, the projected
orders of that symbol in insertion order. -/
def getOrdersBySymbols (symbols : List String) (currentOrders : List OrderData) :
    List OrderData :=
  (symbols.map (fun sym => currentOrders.filter (fun o => o.symbol = sym))).flatten

/-- order/utils.ts `getPositionsBySymbols`. -/
def getPositionsBySymbols (symbols : List String)
    (currentPositions : List LocalPosition) : List LocalPosition :=
  (symbols.map (fun sym => currentPositions.filter (fun p => p.symbol = sym))).flatten

/-- `Set.add` on a watch-set entry (`watchSymbols.set(sym, (get ?? ∅).add id)`).

The redis subscribe side effect of `checkRedis` is not modelled. -/
def watchAdd (w : List ((String × ExchangeEnum) × List WatchId))
    (key : String × ExchangeEnum) (holder : WatchId) :
    List ((String × ExchangeEnum) × List WatchId) :=
  let cur := (alGet w key).getD []
  alSet w key (if holder ∈ cur then cur else cur ++ [holder])

/-- The watch-set removal idiom: delete the holder from the symbol's set and
drop the (emptied) entry, unsubscribing, when no holder remains. -/
def watchRemoveHolder (w : List ((String × ExchangeEnum) × List WatchId))
    (key : String × ExchangeEnum) (holder : WatchId) :
    List ((String × ExchangeEnum) × List WatchId) :=
  let cur := ((alGet w key).getD []).filter (fun h => ¬h = holder)
  if cur.isEmpty then alDelete w key else alSet w key cur

/-- order.service.ts `newDataLimit` (30 s in ms). -/
def newDataLimit : ℤ := 30 * 1000

/-- order.service.ts `getLatestPriceInExchange`: serve the cached per-symbol
price unless it is falsy or older than `newDataLimit`; otherwise fetch from
the external service, cache the result (even a `null`), and fail with
HTTP 400 when the final price is still falsy. -/
def getLatestPriceInExchange (env : Env) (symbol : String)
    (exchange : ExchangeEnum) (s : MState) : Except SvcError ℚ × MState :=
  let key := (symbol, exchange)
  let cached : Option ℚ := (alGet s.symbolPrice key).bind id
  let tickerTime : ℤ := (alGet s.tickerTimeSym key).getD 0
  let fetch := jsFalsy cached || decide (env.now - tickerTime > newDataLimit)
  let current := if fetch then env.latestPriceData symbol exchange else cached
  let s1 :=
    if fetch then
      { s with
        tickerTimeSym := alSet s.tickerTimeSym key env.now,
        symbolPrice := alSet s.symbolPrice key (env.latestPriceData symbol exchange) }
    else s
  if jsFalsy current then
    (.error (.http "Failed to get latest price from exchange" 400), s1)
  else (.ok (current.getD 0), s1)

/-- order.service.ts `createPositionFromOrder`.  `freshId` stands in for the
created document's id and `v4()` uuid. -/
def createPositionFromOrder (env : Env) (order : OrderData) (leverage : ℚ)
    (marginArg feeArg amountArg : Option ℚ) (freshId : ℕ) : LocalPosition :=
  let margin := marginArg.getD (order.amount * order.price / leverage)
  let fee := feeArg.getD order.fee
  let feePerc := getUserFee (if order.type = .LIMIT then .maker else .taker)
    order.exchange
  { id := freshId
    symbol := order.symbol
    margin := margin
    entryPrice := order.price
    closePrice := 0
    liquidationPrice := liquidationPrice order.price
      (if order.side = .BUY then .long else .short) feePerc leverage
    positionSide := if order.side = .BUY then .long else .short
    positionAmt := amountArg.getD order.amount
    user := order.user
    exchange := order.exchange
    createdAt := env.now
    updatedAt := env.now
    status := .new
    profit := -fee
    fee := fee
    leverage := leverage
    uuid := freshId }

/-- order.service.ts `lockLeverage`: `updateOne({user, symbol, side},
{locked: true})` on the first matching row. -/
def lockLeverage (levs : List LeverageRec) (user symbol : String)
    (side : Option PositionSide) : List LeverageRec :=
  match levs with
  | [] => []
  | l :: ls =>
    if l.user = user ∧ l.symbol = symbol ∧ l.side = side then
      { l with locked := true } :: ls
    else l :: lockLeverage ls user symbol side

/-- order.service.ts `unLockLeverage`. -/
def unLockLeverage (levs : List LeverageRec) (user symbol : String)
    (side : Option PositionSide) : List LeverageRec :=
  match levs with
  | [] => []
  | l :: ls =>
    if l.user = user ∧ l.symbol = symbol ∧ l.side = side then
      { l with locked := false } :: ls
    else l :: unLockLeverage ls user symbol side

/-- `orderModel.findOneAndUpdate({externalId}, {...order})`: overwrite the
first stored order with that externalId. -/
def dbUpdateOrderByExternalId : List OrderData → OrderData → List OrderData
  | [], _ => []
  | o :: os, upd =>
    if o.externalId = upd.externalId then upd :: os
    else o :: dbUpdateOrderByExternalId os upd

/-- `positionModel.findOneAndUpdate({uuid}, {...current, updatedAt: now})`. -/
def dbUpdatePositionByUuid : List LocalPosition → LocalPosition → ℤ →
    List LocalPosition
  | [], _, _ => []
  | p :: ps, upd, now =>
    if p.uuid = upd.uuid then { upd with updatedAt := now } :: ps
    else p :: dbUpdatePositionByUuid ps upd now

/-- `orderModel.updateOne({_id}, {$set: {status}})`. -/
def dbSetOrderStatus : List OrderData → ℕ → OrderStatus → List OrderData
  | [], _, _ => []
  | o :: os, oid, st =>
    if o.id = oid then { o with status := st } :: os
    else o :: dbSetOrderStatus os oid st

/-- `order.feePerc || getUserFee(...)`: JS `||` falls through on `undefined`
and on `0`. -/
def feePercOr (o : Option ℚ) (d : ℚ) : ℚ :=
  match o with
  | none => d
  | some f => if f = 0 then d else f

/-- order.service.ts `addPositionToWatchList`: projection insert plus
watch-set add of the position's document id. -/
def addPositionToWatchList (p : LocalPosition) (s : MState) : MState :=
  { s with
    currentPositions := setPositionProj s.currentPositions p,
    watch := watchAdd s.watch (p.symbol, p.exchange) (.position p.id) }

/-- The common tail of `processFuturesPosition` when a current position
exists: projection update or removal, `positionModel.findOneAndUpdate` by
uuid, then the single balance update. -/
def settleCurrentTail (env : Env) (cur : LocalPosition) (assetName user : String)
    (free locked : ℚ) (s : MState) : MState :=
  let s :=
    if cur.status = .closed then
      { s with currentPositions :=
          removePositionProj s.currentPositions cur.symbol cur.uuid }
    else { s with currentPositions := setPositionProj s.currentPositions cur }
  let s := { s with positionsDb := dbUpdatePositionByUuid s.positionsDb cur env.now }
  { s with wallets := walletInc s.wallets user assetName free locked }

/-- order.service.ts `processFuturesPosition`. -/
def processFuturesPosition (env : Env) (order0 : OrderData) (leverage : ℚ)
    (symbol : SymbolInfo) (s : MState) : MState :=
  let hedge := (alGet s.hedges order0.user).getD false
  let current := (getPositionsBySymbols [order0.symbol] s.currentPositions).find?
    (fun p => decide (p.user = order0.user ∧
      (hedge = true → some p.positionSide = order0.positionSide)))
  let marginAsset :=
    if isCoinm order0.exchange then symbol.baseAssetName else symbol.quoteAssetName
  let margin :=
    if isCoinm order0.exchange then
      order0.amount * symbol.quoteMinAmount / order0.price / leverage
    else order0.amount * order0.price / leverage
  match current with
  | none =>
    let pos := createPositionFromOrder env order0 leverage (some margin) none none
      s.nextId
    let s := { s with positionsDb := pos :: s.positionsDb, nextId := s.nextId + 1 }
    let s := addPositionToWatchList pos s
    let s := { s with
      leverages := lockLeverage s.leverages order0.user order0.symbol order0.positionSide }
    { s with
      wallets := walletInc s.wallets order0.user marginAsset (-margin - order0.fee) margin }
  | some current =>
    let feePerc := feePercOr order0.feePerc
      (getUserFee (if order0.type = .LIMIT then .maker else .taker) order0.exchange)
    if (order0.side = .BUY ∧ current.positionSide = .long) ∨
        (order0.side = .SELL ∧ current.positionSide = .short) then
      let newEntry := (current.entryPrice * current.positionAmt +
        order0.price * order0.amount) / (current.positionAmt + order0.amount)
      let cur := { current with
        margin := current.margin + margin
        entryPrice := newEntry
        positionAmt := current.positionAmt + order0.amount
        liquidationPrice :=
          liquidationPrice newEntry current.positionSide feePerc leverage
        updatedAt := env.now
        fee := current.fee + order0.fee
        profit := current.profit - order0.fee }
      settleCurrentTail env cur marginAsset order0.user (-margin - order0.fee)
        margin s
    else
      let dir : ℚ := if current.positionSide = PositionSide.long then 1 else -1
      let diff := current.positionAmt - order0.amount
      let roundedDiff := mathRound diff 10
      if |diff| ≤ numberEPSILON ∨
          (if isCoinm order0.exchange then |roundedDiff| < 1
           else |roundedDiff| < symbol.baseMinAmount) then
        let profit :=
          if isCoinm order0.exchange then
            (current.positionAmt * symbol.quoteMinAmount / current.entryPrice -
              current.positionAmt * symbol.quoteMinAmount / order0.price) * dir -
              order0.fee
          else
            (current.positionAmt * order0.price -
              current.positionAmt * current.entryPrice) * dir - order0.fee
        let old := current.margin
        let cur := { current with
          status := PositionStatus.closed
          profit := current.profit + profit
          fee := current.fee + order0.fee
          margin := 0
          closePrice := order0.price }
        let s := { s with
          leverages := unLockLeverage s.leverages order0.user order0.symbol order0.positionSide }
        let s := { s with
          watch := watchRemoveHolder s.watch (order0.symbol, order0.exchange) (.position current.id) }
        settleCurrentTail env cur marginAsset order0.user (old + profit) (-old) s
      else if diff ≤ 0 then
        if order0.reduceOnly then
          let fee1 := order0.fee -
            (if isCoinm order0.exchange then
              |diff| * symbol.quoteMinAmount / order0.price
             else |diff| * feePerc)
          let order1 := { order0 with
            fee := fee1
            amount := current.positionAmt
            filledAmount := current.positionAmt
            quoteAmount := current.positionAmt * order0.price
            filledQuoteAmount := current.positionAmt * order0.price }
          let profit :=
            if isCoinm order1.exchange then
              (order1.amount * symbol.quoteMinAmount / current.entryPrice -
                order1.amount * symbol.quoteMinAmount / order1.price) * dir -
                order1.fee
            else
              (order1.amount * order1.price - order1.amount * current.entryPrice) *
                dir - order1.fee
          let old := current.margin
          let cur := { current with
            status := PositionStatus.closed
            profit := current.profit + profit
            fee := current.fee + order1.fee
            margin := 0
            closePrice := order1.price }
          let s := { s with ordersDb := dbUpdateOrderByExternalId s.ordersDb order1 }
          let s := { s with
            leverages := unLockLeverage s.leverages order1.user order1.symbol order1.positionSide }
          settleCurrentTail env cur marginAsset order1.user (old + profit) (-old) s
        else
          let diffMargin :=
            if isCoinm order0.exchange then
              current.positionAmt * symbol.quoteMinAmount / current.entryPrice /
                leverage
            else current.positionAmt * current.entryPrice / leverage
          let closeFee :=
            (if isCoinm order0.exchange then
              current.positionAmt * symbol.quoteMinAmount / order0.price
             else current.positionAmt * order0.price) * feePerc
          let profit :=
            if isCoinm order0.exchange then
              (current.positionAmt * symbol.quoteMinAmount / current.entryPrice -
                current.positionAmt * symbol.quoteMinAmount / order0.price) * dir -
                closeFee
            else
              (current.positionAmt * order0.price -
                current.positionAmt * current.entryPrice) * dir - closeFee
          let cur := { current with
            status := PositionStatus.closed
            profit := current.profit + profit
            fee := current.fee + closeFee
            margin := current.margin - diffMargin
            closePrice := order0.price }
          let locked := -diffMargin + (margin - diffMargin)
          let free := diffMargin + profit + closeFee - order0.fee -
            (margin - diffMargin)
          let pos := createPositionFromOrder env order0 leverage
            (some (margin - diffMargin)) (some (order0.fee - closeFee))
            (some (order0.amount - current.positionAmt)) s.nextId
          let s := { s with positionsDb := pos :: s.positionsDb
                            nextId := s.nextId + 1 }
          let s := addPositionToWatchList pos s
          settleCurrentTail env cur marginAsset order0.user free locked s
      else
        let profit :=
          if isCoinm order0.exchange then
            (order0.amount * symbol.quoteMinAmount / current.entryPrice -
              order0.amount * symbol.quoteMinAmount / order0.price) * dir -
              order0.fee
          else
            (order0.amount * order0.price - order0.amount * current.entryPrice) *
              dir - order0.fee
        let cur := { current with
          margin := current.margin - margin
          positionAmt := current.positionAmt - order0.amount
          profit := current.profit + profit
          fee := current.fee + order0.fee }
        settleCurrentTail env cur marginAsset order0.user (margin + profit)
          (-margin) s

/-- order.service.ts `processMarketOrder`. -/
def processMarketOrder (env : Env) (order : CreateOrderDto) (userId : String)
    (leverage : ℚ) (s : MState) : Except SvcError CreateOrderResponse × MState :=
  match getLatestPriceInExchange env order.symbol order.exchange s with
  | (.error e, s1) => (.error e, s1)
  | (.ok currentPrice, s1) =>
    match env.getSymbol order.symbol order.exchange with
    | none => (.error (.http "Symbol not found" 400), s1)
    | some symbol =>
      let quoteAssetAmount := order.amount * currentPrice
      let baseAssetAmount :=
        if isCoinm order.exchange then
          order.amount * symbol.quoteMinAmount / currentPrice
        else order.amount
      let feePerc := getUserFee .taker order.exchange
      let futFee :=
        if isFutures order.exchange then
          if isCoinm order.exchange then baseAssetAmount * feePerc
          else quoteAssetAmount * feePerc
        else 0
      let fee :=
        if order.side = .SELL then
          if isFutures order.exchange then futFee else quoteAssetAmount * feePerc
        else
          if isFutures order.exchange then futFee else order.amount * feePerc
      let orderInDb : OrderData := {
        id := s1.nextId
        amount := order.amount
        filledAmount := order.amount
        filledQuoteAmount := quoteAssetAmount
        quoteAmount := quoteAssetAmount
        price := currentPrice
        avgFilledPrice := currentPrice
        fee := fee
        feePerc := some feePerc
        symbol := order.symbol
        user := userId
        exchange := order.exchange
        status := OrderStatus.FILLED
        type := OrderType.MARKET
        side := order.side
        externalId := order.externalId
        createdAt := env.now
        updatedAt := env.now
        reduceOnly := order.reduceOnly
        positionSide := order.positionSide }
      let s2 := { s1 with ordersDb := orderInDb :: s1.ordersDb
                          nextId := s1.nextId + 1 }
      if isFutures order.exchange then
        (.ok ⟨orderInDb.id, orderInDb.status⟩,
          processFuturesPosition env orderInDb leverage symbol s2)
      else
        let balance : List BalanceUpd :=
          if order.side = .SELL then
            [⟨symbol.quoteAssetName, quoteAssetAmount - fee, 0⟩,
              ⟨symbol.baseAssetName, -order.amount, 0⟩]
          else
            [⟨symbol.baseAssetName, baseAssetAmount - fee, 0⟩,
              ⟨symbol.quoteAssetName, -quoteAssetAmount, 0⟩]
        (.ok ⟨orderInDb.id, orderInDb.status⟩,
          { s2 with wallets := increaseUserBalance s2.wallets userId balance })

/-- order.service.ts `createLimitOrder`. -/
def createLimitOrder (env : Env) (order : CreateOrderDto) (userId : String)
    (s : MState) : Except SvcError CreateOrderResponse × MState :=
  match env.getSymbol order.symbol order.exchange with
  | none => (.error (.http "Symbol not found" 400), s)
  | some symbol =>
    let quoteAssetAmount := order.amount * order.price
    let orderInDb : OrderData := {
      id := s.nextId
      amount := order.amount
      filledAmount := 0
      filledQuoteAmount := 0
      quoteAmount := quoteAssetAmount
      price := order.price
      avgFilledPrice := 0
      fee := 0
      feePerc := some (getUserFee .maker order.exchange)
      symbol := order.symbol
      user := userId
      exchange := order.exchange
      status := OrderStatus.CREATED
      type := order.type
      side := order.side
      externalId := order.externalId
      createdAt := env.now
      updatedAt := env.now
      reduceOnly := order.reduceOnly
      positionSide := order.positionSide }
    let s := { s with ordersDb := orderInDb :: s.ordersDb, nextId := s.nextId + 1 }
    let balance : List BalanceUpd :=
      if !isFutures order.exchange then
        if order.side = .SELL then
          [⟨symbol.baseAssetName, -order.amount, order.amount⟩]
        else [⟨symbol.quoteAssetName, -quoteAssetAmount, quoteAssetAmount⟩]
      else []
    let s := { s with wallets := increaseUserBalance s.wallets userId balance }
    let s := { s with currentOrders := setOrderProj s.currentOrders orderInDb }
    let s := { s with
      watch := watchAdd s.watch (order.symbol, order.exchange) (.order order.externalId) }
    (.ok ⟨orderInDb.id, orderInDb.status⟩, s)

/-- `!b || b.free < threshold` — the insufficient-balance test on an optional
wallet row. -/
def walletFreeBelow (w : Option WalletRow) (threshold : ℚ) : Bool :=
  match w with
  | none => true
  | some b => decide (b.free < threshold)

/-- order.service.ts `createOrder` (the decorator-level mutex is the
sequentiality of this function). -/
def createOrder (env : Env) (order : CreateOrderDto) (s : MState) :
    Except SvcError CreateOrderResponse × MState :=
  match env.findUser order.key order.secret with
  | none => (.error (.http "User not found" 400), s)
  | some userId =>
  match env.getSymbol order.symbol order.exchange with
  | none => (.error (.http "Symbol not found" 400), s)
  | some symbol =>
  let baseAssetBalance := lookupWallet s.wallets userId symbol.baseAssetName
  let quoteAssetBalance := lookupWallet s.wallets userId symbol.quoteAssetName
  let futures := isFutures order.exchange
  let leverageAndState :=
    if futures then
      match s.leverages.find? (fun l => decide (l.user = userId ∧
          l.symbol = order.symbol ∧ l.side = order.positionSide)) with
      | none =>
        ((1 : ℚ), { s with leverages :=
          s.leverages ++ [⟨userId, order.symbol, order.positionSide, 1, false⟩] })
      | some l => (l.leverage, s)
    else ((1 : ℚ), s)
  let leverage := leverageAndState.1
  let s := leverageAndState.2
  match getLatestPriceInExchange env order.symbol order.exchange s with
  | (.error e, s) => (.error e, s)
  | (.ok currentPrice, s) =>
  let marketable := order.type = .MARKET ∨
    (order.side = .BUY ∧ order.price > currentPrice) ∨
    (order.side = .SELL ∧ order.price < currentPrice)
  let order1 := { order with
    type := if marketable then OrderType.MARKET else OrderType.LIMIT }
  let usedPrice := if order1.type = .MARKET then currentPrice else order1.price
  if futures then
    let hedge := (alGet s.hedges userId).getD false
    if hedge = true ∧ order1.positionSide = some PositionSide.both then
      (.error (.http "Position side must be specified in hedge mode" 400), s)
    else
      let findp := (getPositionsBySymbols [order1.symbol] s.currentPositions).find?
        (fun p => decide (p.user = userId ∧
          (hedge = true → some p.positionSide = order1.positionSide)))
      let notEnough : Bool :=
        match findp with
        | some f =>
          if (f.positionSide = .long ∧ order1.side = .BUY) ∨
              (f.positionSide = .short ∧ order1.side = .SELL) then
            if isCoinm order1.exchange then
              walletFreeBelow baseAssetBalance
                (order1.amount * symbol.quoteMinAmount / usedPrice / leverage)
            else
              walletFreeBelow quoteAssetBalance
                (order1.amount * usedPrice / leverage)
          else if ((f.positionSide = .short ∧ order1.side = .BUY) ∨
              (f.positionSide = .long ∧ order1.side = .SELL)) ∧
              order1.reduceOnly = false then
            let diffq :=
              if isCoinm order1.exchange then
                max 0 ((order1.amount - f.positionAmt) * symbol.quoteMinAmount /
                  order1.price / leverage)
              else max 0 ((order1.amount - f.positionAmt) * order1.price / leverage)
            if isCoinm order1.exchange then walletFreeBelow baseAssetBalance diffq
            else walletFreeBelow quoteAssetBalance diffq
          else false
        | none =>
          if isCoinm order1.exchange then
            walletFreeBelow baseAssetBalance
              (order1.amount * symbol.quoteMinAmount / usedPrice / leverage)
          else
            walletFreeBelow quoteAssetBalance (order1.amount * usedPrice / leverage)
      if notEnough then (.error (.http "Not enough balance" 400), s)
      else if findp.isNone && order1.reduceOnly then
        (.error (.http "Reduce order is rejected" 400), s)
      else if order1.type = .LIMIT then createLimitOrder env order1 userId s
      else processMarketOrder env order1 userId leverage s
  else
    if order1.type = .MARKET ∨
        (order1.side = .BUY ∧ order1.price > currentPrice) ∨
        (order1.side = .SELL ∧ order1.price < currentPrice) then
      if order1.side = .BUY ∧
          walletFreeBelow quoteAssetBalance (order1.amount * currentPrice) then
        (.error (.http "Not enough balance" 400), s)
      else if order1.side = .SELL ∧ walletFreeBelow baseAssetBalance order1.amount
          then
        (.error (.http "Not enough balance" 400), s)
      else processMarketOrder env order1 userId leverage s
    else
      if order1.side = .BUY ∧
          walletFreeBelow quoteAssetBalance (order1.amount * order1.price) then
        (.error (.http "Not enough balance" 400), s)
      else if order1.side = .SELL ∧ walletFreeBelow baseAssetBalance order1.amount
          then
        (.error (.http "Not enough balance" 400), s)
      else createLimitOrder env order1 userId s

structure CancelResult where
  statusText : String
deriving DecidableEq

/-- order.service.ts `processCancelOrder` (under the UpdateOrder mutex).  The
symbol-cache/TTL dance and the `getQuoteAsset`/`getBaseAsset` fallback both
resolve the same asset names as `env.getSymbol`; the projection copy used by
the source is the stored order itself. -/
def processCancelOrder (env : Env) (orderId : String) (userId : String)
    (expired : Bool) (s : MState) : Except SvcError CancelResult × MState :=
  match s.ordersDb.find?
      (fun o => decide (o.externalId = orderId ∧ o.user = userId)) with
  | none => (.error (.http "Unknown order" 400), s)
  | some order =>
    if order.status = .FILLED ∨ order.status = .CANCELED ∨
        order.status = .EXPIRED then
      (.error (.http "Unknown order" 400), s)
    else
      let newStatus := if expired then OrderStatus.EXPIRED else OrderStatus.CANCELED
      let s := { s with ordersDb := dbSetOrderStatus s.ordersDb order.id newStatus }
      match env.getSymbol order.symbol order.exchange with
      | none => (.error (.http "Symbol not found" 400), s)
      | some symbol =>
        let s :=
          if order.type = .LIMIT then
            let asset := if order.side = .BUY then symbol.quoteAssetName
              else symbol.baseAssetName
            let amount0 := if order.side = .BUY then
                order.quoteAmount - order.filledQuoteAmount
              else order.amount - order.filledAmount
            let amount := if isFutures order.exchange then 0 else amount0
            if amount ≠ 0 then
              { s with wallets := walletInc s.wallets userId asset amount (-amount) }
            else s
          else s
        let s := { s with
          watch := watchRemoveHolder s.watch (order.symbol, order.exchange)
            (.order order.externalId) }
        let s := { s with
          currentOrders := removeOrderProj s.currentOrders order.symbol
            order.externalId }
        (.ok ⟨"canceled"⟩, s)

/-- order.service.ts `cancelOrderByKeySecretExternalIdAndSymbol`. -/
def cancelOrderByKeySecretExternalIdAndSymbol (env : Env) (key secret
    externalId : String) (expired : Bool) (s : MState) :
    Except SvcError CancelResult × MState :=
  match env.findUser key secret with
  | none => (.error (.http "User not found" 400), s)
  | some userId => processCancelOrder env externalId userId expired s

/-- order.service.ts `cancelOrderByKeySecretIdAndSymbol`.  When no order with
the requested `_id` exists, `orderModel.findOne` resolves to `null` and the
subsequent `order.externalId` access raises an uncaught `TypeError`. -/
def cancelOrderByKeySecretIdAndSymbol (env : Env) (key secret : String)
    (orderId : ℕ) (expired : Bool) (s : MState) :
    Except SvcError CancelResult × MState :=
  match env.findUser key secret with
  | none => (.error (.http "User not found" 400), s)
  | some userId =>
    match s.ordersDb.find? (fun o => decide (o.id = orderId)) with
    | none =>
      (.error (.typeErr "Cannot read properties of null reading externalId"), s)
    | some order => processCancelOrder env order.externalId userId expired s

/-- One dispatch made by the matching engine while walking a tick batch. -/
inductive EngineAction
  | liquidate (p : LocalPosition)
  | fill (o : OrderData) (t : Tick)
deriving DecidableEq

/-- The body of `processTickerQueue`'s per-symbol loop: liquidation candidates
(LONG then SHORT, each sorted) followed by limit-fill candidates (SELL then
BUY, each sorted).  `orders` and `futures` are the batch-level filtered
projections. -/
def tickActions (exchange : ExchangeEnum) (orders : List OrderData)
    (futures : List LocalPosition) (symbol : String) (t : Tick) :
    List EngineAction :=
  let isFuturesExchange := isFutures exchange
  let filteredFutures := futures.filter (fun p => decide (p.symbol = symbol))
  let longPositions := (filteredFutures.filter (fun p =>
      decide (p.positionSide = PositionSide.long ∧
        p.liquidationPrice ≥ t.bestBid))).insertionSort
    (fun a b => a.liquidationPrice ≤ b.liquidationPrice)
  let shortPositions := (filteredFutures.filter (fun p =>
      decide (p.positionSide = PositionSide.short ∧
        p.liquidationPrice ≤ t.bestAsk))).insertionSort
    (fun a b => b.liquidationPrice ≤ a.liquidationPrice)
  let filterPositions := orders.filter (fun o => decide (o.symbol = symbol))
  let sellPositions := (filterPositions.filter (fun o =>
      decide (o.side = OrderSide.SELL ∧ o.price ≤ t.bestBid ∧
        (isFuturesExchange = true ∨ t.bidQty > 0)))).insertionSort
    (fun a b => a.price ≤ b.price)
  let buyPositions := (filterPositions.filter (fun o =>
      decide (o.side = OrderSide.BUY ∧ o.price ≥ t.bestAsk ∧
        (isFuturesExchange = true ∨ t.askQty > 0)))).insertionSort
    (fun a b => b.price ≤ a.price)
  (longPositions ++ shortPositions).map EngineAction.liquidate ++
    (sellPositions ++ buyPositions).map (fun o => EngineAction.fill o t)

/-- order.service.ts `processTickerQueue` (under the per-exchange Ticker
mutex), as the sequence of `closeFuturePosition` / `processLimitOrder`
dispatches it makes.  JS `Array.prototype.sort` is stable, as is
`List.insertionSort`. -/
def processTickerQueue (exchange : ExchangeEnum) (currentOrders : List OrderData)
    (currentPositions : List LocalPosition) (tickerData : List (String × Tick)) :
    List EngineAction :=
  let positions := (getOrdersBySymbols (tickerData.map Prod.fst)
    currentOrders).filter (fun o =>
      decide (o.exchange = exchange ∧
        (o.status = OrderStatus.CREATED ∨ o.status = OrderStatus.PARTIALLY_FILLED) ∧
        o.type = OrderType.LIMIT))
  let futures := (getPositionsBySymbols (tickerData.map Prod.fst)
    currentPositions).filter (fun p =>
      decide (p.exchange = exchange ∧ p.status = PositionStatus.new))
  (tickerData.map (fun st => tickActions exchange positions futures st.1 st.2)).flatten

/-- order.service.ts `processTickers`: the three intake filters (per-exchange
monotonicity, freshness, signature dedup), the price-map update, and the
coalesced per-exchange batch. -/
def processTickers (env : Env) (exchange : ExchangeEnum) (tickers : List Ticker)
    (s : MState) : MState × List (String × Tick) :=
  let headTime : ℤ :=
    match tickers.head? with
    | some t => t.eventTime.getD t.time
    | none => 0
  if headTime < (alGet s.tickerTimeEx exchange).getD 0 then (s, [])
  else
    let s := { s with tickerTimeEx := alSet s.tickerTimeEx exchange headTime }
    tickers.foldl
      (fun acc t =>
        let s := acc.1
        let td := acc.2
        let key := (t.symbol, exchange)
        if ((alGet s.watch key).getD []).isEmpty then (s, td)
        else
          let tickerTime := t.eventTime.getD t.time
          if tickerTime < (alGet s.tickerTimeSym key).getD 0 then (s, td)
          else if tickerTime + newDataLimit < env.now then
            ({ s with
                tickerTimeSym := alSet s.tickerTimeSym key env.now,
                symbolPrice := alDelete s.symbolPrice key }, td)
          else
            let s := { s with tickerTimeSym := alSet s.tickerTimeSym key tickerTime }
            let sig : TickSig :=
              ⟨t.bestAsk, t.bestBid, t.bestAskQnt, t.bestBidQnt, t.price⟩
            if alGet s.tickerSignature key = some sig then (s, td)
            else
              let s := { s with
                tickerSignature := alSet s.tickerSignature key sig,
                symbolPrice := alSet s.symbolPrice key (some t.price) }
              (s, alSet td t.symbol
                ⟨t.bestBid, t.bestAsk, t.bestBidQnt, t.bestAskQnt, tickerTime⟩))
      (s, ([] : List (String × Tick)))

/-- An empty engine state. -/
def emptyState : MState :=
  ⟨[], [], [], [], [], [], [], [], [], [], [], [], 0⟩

/-- A test environment: one credential pair `("k", "s") ↦ "u1"`, a fixed
symbol-info answer and a fixed external latest price. -/
def envWith (now : ℤ) (sym : Option SymbolInfo) (price : Option ℚ) : Env :=
  { now := now
    findUser := fun key secret =>
      if key = "k" ∧ secret = "s" then some "u1" else none
    getSymbol := fun _ _ => sym
    latestPriceData := fun _ _ => price }

/-- BTCUSDT symbol parameters used by the concrete scenarios
(min base amount 0.001, contract size 1). -/
def btcUsdt : SymbolInfo := ⟨"BTC", 1 / 1000, "USDT", 1⟩

/-- C1 fixture: a filled reduce-only MARKET SELL for 0.2 BTC at 50000 on the
linear venue, fee `0.2·50000·0.0004 = 4` USDT. -/
def c1Order : OrderData :=
  { id := 0
    amount := 1 / 5
    filledAmount := 1 / 5
    filledQuoteAmount := 10000
    quoteAmount := 10000
    price := 50000
    avgFilledPrice := 50000
    fee := 4
    feePerc := some (4 / 10000)
    symbol := "BTCUSDT"
    user := "u1"
    exchange := .binanceUsdm
    status := .FILLED
    type := .MARKET
    side := .SELL
    externalId := "ro1"
    createdAt := 0
    updatedAt := 0
    reduceOnly := true
    positionSide := some .short }

/-- C1 fixture: an open LONG position of 0.1 BTC at entry 50000, margin 500
(leverage 10). -/
def c1Position : LocalPosition :=
  { id := 1
    symbol := "BTCUSDT"
    margin := 500
    entryPrice := 50000
    closePrice := 0
    liquidationPrice := 45000
    positionSide := .long
    positionAmt := 1 / 10
    user := "u1"
    exchange := .binanceUsdm
    createdAt := 0
    updatedAt := 0
    status := .new
    profit := 0
    fee := 0
    leverage := 10
    uuid := 1 }

def c1State : MState :=
  { emptyState with
    wallets := [⟨"u1", "USDT", 0, 500⟩]
    ordersDb := [c1Order]
    positionsDb := [c1Position]
    currentPositions := [c1Position] }

/-- C2 fixture: MARKET BUY 0.01 BTC on the linear venue. -/
def c2Buy : CreateOrderDto :=
  ⟨"k", "s", "BTCUSDT", 1 / 100, .MARKET, .binanceUsdm, .BUY, "o1", 50000,
    false, none⟩

/-- C2 fixture: MARKET SELL 0.01 BTC closing the position. -/
def c2Sell : CreateOrderDto :=
  ⟨"k", "s", "BTCUSDT", 1 / 100, .MARKET, .binanceUsdm, .SELL, "o2", 30000,
    false, none⟩

/-- C2 fixture: a user holding exactly 50.2 USDT with leverage 10 set for
BTCUSDT. -/
def c2State : MState :=
  { emptyState with
    wallets := [⟨"u1", "USDT", 251 / 5, 0⟩]
    leverages := [⟨"u1", "BTCUSDT", none, 10, false⟩] }

/-- C2 fixture: a spot LIMIT BUY at 40000 while the cached price is 50000
(a plain, non-marketable limit). -/
def c2LimDto : CreateOrderDto :=
  ⟨"k", "s", "BTCUSDT", 1 / 100, .LIMIT, .binance, .BUY, "o2l", 40000, false,
    none⟩

/-- C3 fixture: a spot LIMIT BUY at 60000 while the cached price is 50000
(a marketable limit). -/
def c3Dto : CreateOrderDto :=
  ⟨"k", "s", "BTCUSDT", 1 / 100, .LIMIT, .binance, .BUY, "o3", 60000, false,
    none⟩

def c3State : MState :=
  { emptyState with
    wallets := [⟨"u1", "USDT", 1000, 0⟩]
    symbolPrice := [(("BTCUSDT", .binance), some 50000)]
    tickerTimeSym := [(("BTCUSDT", .binance), 0)] }

/-- C5 fixture: a partially filled open spot LIMIT BUY; 400 of the 500 USDT
reservation is still unfilled. -/
def c5Order : OrderData :=
  { id := 3
    amount := 1 / 2
    filledAmount := 1 / 10
    filledQuoteAmount := 100
    quoteAmount := 500
    price := 1000
    avgFilledPrice := 1000
    fee := 1 / 10
    feePerc := some (1 / 1000)
    symbol := "BTCUSDT"
    user := "u1"
    exchange := .binance
    status := .PARTIALLY_FILLED
    type := .LIMIT
    side := .BUY
    externalId := "c5"
    createdAt := 0
    updatedAt := 0
    reduceOnly := false
    positionSide := none }

def c5State : MState :=
  { emptyState with
    ordersDb := [c5Order]
    currentOrders := [c5Order]
    wallets := [⟨"u1", "USDT", 10, 400⟩]
    watch := [(("BTCUSDT", .binance), [.order "c5"])] }

/-- C6 fixture: a liquidation candidate (LONG, liquidationPrice 101 above the
bid). -/
def c6Long : LocalPosition :=
  { id := 7
    symbol := "BTCUSDT"
    margin := 10
    entryPrice := 110
    closePrice := 0
    liquidationPrice := 101
    positionSide := .long
    positionAmt := 1
    user := "u1"
    exchange := .binanceUsdm
    createdAt := 0
    updatedAt := 0
    status := .new
    profit := 0
    fee := 0
    leverage := 10
    uuid := 7 }

/-- C6 fixture: an open limit SELL below the bid. -/
def c6Order : OrderData :=
  { id := 8
    amount := 1
    filledAmount := 0
    filledQuoteAmount := 0
    quoteAmount := 99
    price := 99
    avgFilledPrice := 0
    fee := 0
    feePerc := some (2 / 10000)
    symbol := "BTCUSDT"
    user := "u1"
    exchange := .binanceUsdm
    status := .CREATED
    type := .LIMIT
    side := .SELL
    externalId := "c6"
    createdAt := 0
    updatedAt := 0
    reduceOnly := false
    positionSide := some .long }

def c6Tick : Tick := ⟨100, 101, 2, 3, 0⟩

/-- C7 fixture: a ticker whose signature is already recorded for the
symbol. -/
def c7Ticker : Ticker := ⟨101, 100, 5, 7, "BTCUSDT", 1000, 100, none⟩

def c7State : MState :=
  { emptyState with
    watch := [(("BTCUSDT", .binance), [.order "x"])]
    tickerSignature := [(("BTCUSDT", .binance), ⟨101, 100, 5, 7, 100⟩)]
    symbolPrice := [(("BTCUSDT", .binance), some 100)]
    tickerTimeSym := [(("BTCUSDT", .binance), 1000)] }

/-- C8 fixture: a FILLED (terminal) order. -/
def c8Order : OrderData :=
  { c5Order with id := 5, externalId := "c8", status := .FILLED }

def c8State : MState :=
  { emptyState with ordersDb := [c8Order] }

/-- C9 fixture: a derivatives LIMIT BUY carrying no positionSide at all. -/
def c9Dto : CreateOrderDto :=
  ⟨"k", "s", "BTCUSDT", 1 / 100, .LIMIT, .binanceUsdm, .BUY, "o9", 40000,
    false, none⟩

/-- C9 fixture: the same request with `positionSide = BOTH`. -/
def c9BothDto : CreateOrderDto := { c9Dto with positionSide := some .both }

/-- C9 fixture: hedge mode on, leverage present, cached fresh price. -/
def c9State : MState :=
  { emptyState with
    wallets := [⟨"u1", "USDT", 1000, 0⟩]
    hedges := [("u1", true)]
    leverages := [⟨"u1", "BTCUSDT", none, 10, false⟩,
      ⟨"u1", "BTCUSDT", some .both, 10, false⟩]
    symbolPrice := [(("BTCUSDT", .binanceUsdm), some 50000)]
    tickerTimeSym := [(("BTCUSDT", .binanceUsdm), 0)] }

/-- C10 fixture: a plain non-marketable spot LIMIT BUY. -/
def c10Dto : CreateOrderDto :=
  ⟨"k", "s", "BTCUSDT", 1 / 100, .LIMIT, .binance, .BUY, "o10", 40000, false,
    none⟩

instance : IsTotal LocalPosition
    (fun a b => a.liquidationPrice ≤ b.liquidationPrice) :=
  ⟨fun a b => le_total a.liquidationPrice b.liquidationPrice⟩

instance : IsTrans LocalPosition
    (fun a b => a.liquidationPrice ≤ b.liquidationPrice) :=
  ⟨fun _ _ _ hab hbc => le_trans hab hbc⟩

instance : IsTotal LocalPosition
    (fun a b => b.liquidationPrice ≤ a.liquidationPrice) :=
  ⟨fun a b => le_total b.liquidationPrice a.liquidationPrice⟩

instance : IsTrans LocalPosition
    (fun a b => b.liquidationPrice ≤ a.liquidationPrice) :=
  ⟨fun _ _ _ hab hbc => le_trans hbc hab⟩

instance : IsTotal OrderData (fun a b => a.price ≤ b.price) :=
  ⟨fun a b => le_total a.price b.price⟩

instance : IsTrans OrderData (fun a b => a.price ≤ b.price) :=
  ⟨fun _ _ _ hab hbc => le_trans hab hbc⟩

instance : IsTotal OrderData (fun a b => b.price ≤ a.price) :=
  ⟨fun a b => le_total b.price a.price⟩

instance : IsTrans OrderData (fun a b => b.price ≤ a.price) :=
  ⟨fun _ _ _ hab hbc => le_trans hbc hab⟩

theorem alGet_alSet_self {κ ν : Type} [DecidableEq κ] (l : List (κ × ν))
    (k : κ) (v : ν) : alGet (alSet l k v) k = some v := by
  induction l with
  | nil => simp [alGet, alSet, List.find?]
  | cons p ps ih =>
    by_cases h : p.1 = k
    · simp [alSet, h, alGet, List.find?]
    · simpa [alSet, h, alGet, List.find?] using ih

theorem alGet_alDelete_self {κ ν : Type} [DecidableEq κ] (l : List (κ × ν))
    (k : κ) : alGet (alDelete l k) k = none := by
  induction l with
  | nil => simp [alGet, alDelete]
  | cons p ps ih =>
    by_cases h : p.1 = k
    · simp only [alDelete] at ih ⊢
      simpa [h] using ih
    · simp only [alDelete] at ih ⊢
      simpa [h, alGet, List.find?] using ih

theorem lookupWallet_walletInc_self (l : List WalletRow) (u a : String)
    (dF dL : ℚ) :
    lookupWallet (walletInc l u a dF dL) u a =
      some
        (match lookupWallet l u a with
          | some w => { w with free := w.free + dF, locked := w.locked + dL }
          | none => ⟨u, a, dF, dL⟩) := by
  induction l with
  | nil => simp [walletInc, lookupWallet, List.find?]
  | cons w ws ih =>
    by_cases h : w.user = u ∧ w.asset = a
    · simp [walletInc, h, lookupWallet, List.find?]
    · simpa [walletInc, h, lookupWallet, List.find?] using ih

theorem lookupWallet_walletInc_ne (l : List WalletRow) (u a u' a' : String)
    (dF dL : ℚ) (h : ¬(u' = u ∧ a' = a)) :
    lookupWallet (walletInc l u a dF dL) u' a' = lookupWallet l u' a' := by
  induction l with
  | nil =>
    have h' : ¬(u = u' ∧ a = a') := fun hc => h ⟨hc.1.symm, hc.2.symm⟩
    simp only [walletInc, lookupWallet, List.find?_nil]
    rw [List.find?_cons_of_neg]
    · exact rfl
    · simp only [decide_eq_true_eq]
      exact fun hc => h' hc
  | cons w ws ih =>
    simp only [walletInc, lookupWallet] at ih ⊢
    by_cases hw : w.user = u ∧ w.asset = a
    · rw [if_pos hw]
      have hne : ¬(w.user = u' ∧ w.asset = a') := fun hc =>
        h ⟨hc.1.symm.trans hw.1, hc.2.symm.trans hw.2⟩
      refine (List.find?_cons_of_neg ws ?_).trans
        (List.find?_cons_of_neg ws ?_).symm
      · simpa using hne
      · simpa using hne
    · rw [if_neg hw]
      by_cases hv : w.user = u' ∧ w.asset = a'
      · exact (List.find?_cons_of_pos _ (by simpa using hv)).trans
          (List.find?_cons_of_pos _ (by simpa using hv)).symm
      · exact (List.find?_cons_of_neg _ (by simpa using hv)).trans
          (ih.trans (List.find?_cons_of_neg _ (by simpa using hv)).symm)

theorem setOrderProj_mem_self (l : List OrderData) (o : OrderData) :
    o ∈ setOrderProj l o := by
  induction l with
  | nil => simp [setOrderProj]
  | cons p ps ih =>
    by_cases h : p.symbol = o.symbol ∧ p.externalId = o.externalId
    · simp [setOrderProj, h]
    · simp only [setOrderProj, if_neg h]
      exact List.mem_cons_of_mem _ ih

theorem removeOrderProj_not_mem (l : List OrderData) (sym eid : String) :
    ∀ o ∈ removeOrderProj l sym eid, ¬(o.symbol = sym ∧ o.externalId = eid) := by
  intro o ho hc
  have h2 := (List.mem_filter.mp ho).2
  simp only [decide_eq_true_eq] at h2
  exact h2 hc

theorem watchRemoveHolder_not_mem
    (w : List ((String × ExchangeEnum) × List WatchId))
    (key : String × ExchangeEnum) (holder : WatchId) :
    holder ∉ (alGet (watchRemoveHolder w key holder) key).getD [] := by
  unfold watchRemoveHolder
  by_cases hc :
      ((((alGet w key).getD []).filter (fun h => decide ¬h = holder)).isEmpty
        : Bool) = true
  · rw [if_pos hc, alGet_alDelete_self]
    exact List.not_mem_nil _
  · rw [if_neg hc, alGet_alSet_self, Option.getD_some]
    intro hmem
    have h2 := (List.mem_filter.mp hmem).2
    simp at h2

theorem settleCurrentTail_ordersDb (env : Env) (cur : LocalPosition)
    (a u : String) (f l : ℚ) (s : MState) :
    (settleCurrentTail env cur a u f l s).ordersDb = s.ordersDb := by
  unfold settleCurrentTail
  split <;> rfl

theorem settleCurrentTail_wallets (env : Env) (cur : LocalPosition)
    (a u : String) (f l : ℚ) (s : MState) :
    (settleCurrentTail env cur a u f l s).wallets =
      walletInc s.wallets u a f l := by
  unfold settleCurrentTail
  split <;> rfl

theorem getLatestPrice_cached (env : Env) (sym : String) (ex : ExchangeEnum)
    (s : MState) (p : ℚ)
    (hcp : (alGet s.symbolPrice (sym, ex)).bind id = some p) (hp0 : ¬p = 0)
    (hfresh : ¬env.now - (alGet s.tickerTimeSym (sym, ex)).getD 0 > newDataLimit) :
    getLatestPriceInExchange env sym ex s = (.ok p, s) := by
  unfold getLatestPriceInExchange
  simp only [hcp]
  simp [jsFalsy, hp0, hfresh]

theorem getLatestPrice_fetch_none (env : Env) (sym : String) (ex : ExchangeEnum)
    (s : MState)
    (hmiss : jsFalsy ((alGet s.symbolPrice (sym, ex)).bind id) = true ∨
      env.now - (alGet s.tickerTimeSym (sym, ex)).getD 0 > newDataLimit)
    (hext : env.latestPriceData sym ex = none) :
    getLatestPriceInExchange env sym ex s =
      (.error (.http "Failed to get latest price from exchange" 400),
        { s with
          tickerTimeSym := alSet s.tickerTimeSym (sym, ex) env.now,
          symbolPrice := alSet s.symbolPrice (sym, ex) none }) := by
  unfold getLatestPriceInExchange
  rcases hmiss with hmiss | hmiss
  · simp only [hmiss]
    simp [hext, jsFalsy]
  · have hd : newDataLimit < env.now - (alGet s.tickerTimeSym (sym, ex)).getD 0 :=
      hmiss
    simp [hd, hext, jsFalsy]

/-- C4: for every entry price, fee rate and leverage ≥ 1, `liquidationPrice`
returns `entry · (1 + (1/leverage)·s) · (1 + feePerc·s)` with `s = −1` for
LONG and `s = +1` for SHORT when `leverage > 1`, and `entry · feePerc` for
LONG resp. `entry / feePerc` for SHORT when `leverage = 1`. -/
theorem liquidationPrice_spec (entry fee lev : ℚ) (hlev : 1 ≤ lev) :
    (1 < lev →
      liquidationPrice entry PositionSide.long fee lev =
          entry * (1 + 1 / lev * (-1)) * (1 + fee * (-1)) ∧
        liquidationPrice entry PositionSide.short fee lev =
          entry * (1 + 1 / lev * 1) * (1 + fee * 1)) ∧
    (lev = 1 →
      liquidationPrice entry PositionSide.long fee lev = entry * fee ∧
        liquidationPrice entry PositionSide.short fee lev = entry / fee) := by
  have hns : ¬(PositionSide.short = PositionSide.long) := by
    intro hc
    exact absurd hc (by simp)
  refine ⟨fun h => ⟨?_, ?_⟩, fun h => ⟨?_, ?_⟩⟩
  · simp [liquidationPrice, h]
    ring
  · simp [liquidationPrice, h, hns]
    ring
  · subst h
    simp [liquidationPrice]
  · subst h
    simp [liquidationPrice, hns]
    rw [div_eq_mul_inv]

theorem liquidationPrice_spec_witness :
    (liquidationPrice 50000 PositionSide.long (4 / 10000) 10 =
        50000 * (1 + 1 / 10 * (-1)) * (1 + 4 / 10000 * (-1)) ∧
      liquidationPrice 50000 PositionSide.short (4 / 10000) 10 =
        50000 * (1 + 1 / 10 * 1) * (1 + 4 / 10000 * 1)) ∧
    (liquidationPrice 100 PositionSide.long (1 / 1000) 1 = 100 * (1 / 1000) ∧
      liquidationPrice 100 PositionSide.short (1 / 1000) 1 = 100 / (1 / 1000)) :=
  ⟨(liquidationPrice_spec 50000 (4 / 10000) 10 (by norm_num)).1 (by norm_num),
    (liquidationPrice_spec 100 (1 / 1000) 1 (by norm_num)).2 rfl⟩

/-- C1: at the failing input — a linear reduce-only MARKET SELL for 0.2
against an existing LONG of 0.1 at order price 50000, `feePerc = 0.0004`,
original fee 4 — the engine rewrites the persisted order to
`amount = filledAmount = 0.1` and `quoteAmount = filledQuoteAmount = 5000`
and closes the position per the full-close rule, but it reduces the order's
fee by `excess · feePerc = 0.00004` (yielding `4 − 1/25000`), not by the
proportional `excess · orderPrice · feePerc = 2` the claim states. -/
theorem processFuturesPosition_reduceOnly_trim_at_failing_input :
    ((processFuturesPosition (envWith 0 none none) c1Order 10 btcUsdt
          c1State).ordersDb.map
        (fun o => (o.amount, o.filledAmount, o.quoteAmount, o.filledQuoteAmount,
          o.fee))) =
      [(1 / 10, 1 / 10, 5000, 5000, 4 - 1 / 25000)] ∧
    ((processFuturesPosition (envWith 0 none none) c1Order 10 btcUsdt
          c1State).positionsDb.map
        (fun p => (p.status, p.margin, p.closePrice))) =
      [(PositionStatus.closed, 0, 50000)] ∧
    ¬(4 - 1 / 25000 : ℚ) = 4 - 1 / 10 * 50000 * (4 / 10000) := by
  refine ⟨?_, ?_, by norm_num⟩ <;>
    norm_num +decide [processFuturesPosition, getPositionsBySymbols, alGet,
      feePercOr, settleCurrentTail, dbUpdateOrderByExternalId,
      dbUpdatePositionByUuid, removePositionProj, setPositionProj, walletInc,
      unLockLeverage, watchRemoveHolder, alSet, alDelete, mathRound,
      numberEPSILON, liquidationPrice, getUserFee, isCoinm, isFutures,
      lookupWallet, emptyState, envWith, btcUsdt, c1Order, c1Position, c1State,
      List.find?, List.filter, List.flatten, abs_neg,
      show |(1 : ℚ) / 10| = 1 / 10 from abs_of_nonneg (by norm_num),
      show ((-1999999999 : ℤ).fdiv 2) = -1000000000 from by decide]

/-- C7 (amended): delivering a single ticker whose signature (the 5-tuple of
bestAsk, bestBid, bestAskQnt, bestBidQnt, price) equals the last signature
recorded for its symbol, and which is **not stale** (eventTime + 30 s ≥ now),
is a no-op: the tick is dropped before matching (the batch handed to the
engine is empty) and the symbol price map, projection, orders, positions,
balances, watch set and signature map are unchanged.  (A stale duplicate
instead invalidates the cached price: see the counterexample.) -/
theorem processTickers_duplicate_signature_noop (env : Env)
    (exchange : ExchangeEnum) (t : Ticker) (s : MState)
    (hsig : alGet s.tickerSignature (t.symbol, exchange) =
      some ⟨t.bestAsk, t.bestBid, t.bestAskQnt, t.bestBidQnt, t.price⟩)
    (hfresh : ¬(t.eventTime.getD t.time + newDataLimit < env.now)) :
    (processTickers env exchange [t] s).2 = [] ∧
    (processTickers env exchange [t] s).1.symbolPrice = s.symbolPrice ∧
    (processTickers env exchange [t] s).1.currentOrders = s.currentOrders ∧
    (processTickers env exchange [t] s).1.currentPositions =
      s.currentPositions ∧
    (processTickers env exchange [t] s).1.ordersDb = s.ordersDb ∧
    (processTickers env exchange [t] s).1.positionsDb = s.positionsDb ∧
    (processTickers env exchange [t] s).1.wallets = s.wallets ∧
    (processTickers env exchange [t] s).1.watch = s.watch ∧
    (processTickers env exchange [t] s).1.tickerSignature =
      s.tickerSignature := by
  by_cases h0 : (t.eventTime.getD t.time) < (alGet s.tickerTimeEx exchange).getD 0
  · simp [processTickers, h0]
  · by_cases hw : (alGet s.watch (t.symbol, exchange)).getD [] = []
    · simp [processTickers, h0, hw]
    · by_cases hm : (t.eventTime.getD t.time) <
          (alGet s.tickerTimeSym (t.symbol, exchange)).getD 0
      · simp [processTickers, h0, hw, hm]
      · simp [processTickers, h0, hw, hm, hfresh, hsig]

theorem processTickers_duplicate_signature_noop_witness :
    (processTickers (envWith 1000 none none) ExchangeEnum.binance [c7Ticker]
        c7State).2 = [] ∧
    (processTickers (envWith 1000 none none) ExchangeEnum.binance [c7Ticker]
        c7State).1.symbolPrice = c7State.symbolPrice :=
  ⟨(processTickers_duplicate_signature_noop (envWith 1000 none none)
      ExchangeEnum.binance c7Ticker c7State (by decide) (by decide)).1,
    (processTickers_duplicate_signature_noop (envWith 1000 none none)
      ExchangeEnum.binance c7Ticker c7State (by decide) (by decide)).2.1⟩

/-- C7, counterexample to the claim as stated: a ticker whose signature
equals the recorded one but which is stale (eventTime 1000, now 40000) is
dropped before matching, yet it is **not** a no-op on the symbol price map:
the cached price for BTCUSDT@binance is deleted. -/
theorem processTickers_stale_duplicate_mutates_price_map :
    c7State.tickerSignature =
      [(("BTCUSDT", ExchangeEnum.binance),
        ⟨c7Ticker.bestAsk, c7Ticker.bestBid, c7Ticker.bestAskQnt,
          c7Ticker.bestBidQnt, c7Ticker.price⟩)] ∧
    alGet c7State.symbolPrice ("BTCUSDT", ExchangeEnum.binance) =
      some (some 100) ∧
    alGet ((processTickers (envWith 40000 none none) ExchangeEnum.binance
        [c7Ticker] c7State).1).symbolPrice ("BTCUSDT", ExchangeEnum.binance) =
      none ∧
    (processTickers (envWith 40000 none none) ExchangeEnum.binance [c7Ticker]
        c7State).2 = [] := by
  refine ⟨by decide, by decide, ?_, ?_⟩ <;>
    simp +decide [processTickers, alGet, alSet, alDelete, newDataLimit,
      emptyState, envWith, c7Ticker, c7State, List.find?, List.filter,
      List.foldl]

/-- Membership in `getPositionsBySymbols`: a projected position is selected
iff it is in the projection and its symbol is among the requested keys. -/
theorem mem_getPositionsBySymbols (syms : List String) (l : List LocalPosition)
    (p : LocalPosition) :
    p ∈ getPositionsBySymbols syms l ↔ p ∈ l ∧ p.symbol ∈ syms := by
  simp only [getPositionsBySymbols, List.mem_flatten, List.mem_map]
  constructor
  · rintro ⟨a, ⟨sym, hsym, rfl⟩, hp⟩
    have h := List.mem_filter.mp hp
    have h2 : p.symbol = sym := by simpa using h.2
    exact ⟨h.1, h2 ▸ hsym⟩
  · rintro ⟨hl, hsym⟩
    exact ⟨l.filter (fun q => decide (q.symbol = p.symbol)),
      ⟨p.symbol, hsym, rfl⟩, List.mem_filter.mpr ⟨hl, by simp⟩⟩

/-- Membership in `getOrdersBySymbols`. -/
theorem mem_getOrdersBySymbols (syms : List String) (l : List OrderData)
    (o : OrderData) :
    o ∈ getOrdersBySymbols syms l ↔ o ∈ l ∧ o.symbol ∈ syms := by
  simp only [getOrdersBySymbols, List.mem_flatten, List.mem_map]
  constructor
  · rintro ⟨a, ⟨sym, hsym, rfl⟩, hp⟩
    have h := List.mem_filter.mp hp
    have h2 : o.symbol = sym := by simpa using h.2
    exact ⟨h.1, h2 ▸ hsym⟩
  · rintro ⟨hl, hsym⟩
    exact ⟨l.filter (fun q => decide (q.symbol = o.symbol)),
      ⟨o.symbol, hsym, rfl⟩, List.mem_filter.mpr ⟨hl, by simp⟩⟩

/-- C6: for a (symbol, tick) pair of a per-exchange batch, the engine first
dispatches liquidation candidates — LONG positions with
`liquidationPrice ≥ bestBid` in ascending liquidationPrice order, then SHORT
positions with `liquidationPrice ≤ bestAsk` in descending order — and only
afterwards dispatches limit-fill candidates — SELL orders with
`price ≤ bestBid` ascending (spot additionally `bidQty > 0`), then BUY
orders with `price ≥ bestAsk` descending (spot additionally `askQty > 0`);
the membership equivalences show no other order or position of the
projection is touched by the batch. -/
theorem processTickerQueue_order_of_work (exchange : ExchangeEnum)
    (co : List OrderData) (cp : List LocalPosition)
    (batch : List (String × Tick)) (symbol : String) (t : Tick)
    (hmem : (symbol, t) ∈ batch) :
    ∃ (P : List OrderData) (F : List LocalPosition)
      (liqLong liqShort : List LocalPosition)
      (fillSell fillBuy : List OrderData),
      P = (getOrdersBySymbols (batch.map Prod.fst) co).filter (fun o =>
        decide (o.exchange = exchange ∧
          (o.status = OrderStatus.CREATED ∨
            o.status = OrderStatus.PARTIALLY_FILLED) ∧
          o.type = OrderType.LIMIT)) ∧
      F = (getPositionsBySymbols (batch.map Prod.fst) cp).filter (fun p =>
        decide (p.exchange = exchange ∧ p.status = PositionStatus.new)) ∧
      processTickerQueue exchange co cp batch =
        (batch.map (fun st => tickActions exchange P F st.1 st.2)).flatten ∧
      tickActions exchange P F symbol t =
        (liqLong ++ liqShort).map EngineAction.liquidate ++
          (fillSell ++ fillBuy).map (fun o => EngineAction.fill o t) ∧
      (∀ p : LocalPosition, p ∈ liqLong ↔
        p ∈ cp ∧ p.exchange = exchange ∧ p.status = PositionStatus.new ∧
          p.symbol = symbol ∧ p.positionSide = PositionSide.long ∧
          p.liquidationPrice ≥ t.bestBid) ∧
      List.Sorted (fun a b : LocalPosition =>
        a.liquidationPrice ≤ b.liquidationPrice) liqLong ∧
      (∀ p : LocalPosition, p ∈ liqShort ↔
        p ∈ cp ∧ p.exchange = exchange ∧ p.status = PositionStatus.new ∧
          p.symbol = symbol ∧ p.positionSide = PositionSide.short ∧
          p.liquidationPrice ≤ t.bestAsk) ∧
      List.Sorted (fun a b : LocalPosition =>
        b.liquidationPrice ≤ a.liquidationPrice) liqShort ∧
      (∀ o : OrderData, o ∈ fillSell ↔
        o ∈ co ∧ o.exchange = exchange ∧
          (o.status = OrderStatus.CREATED ∨
            o.status = OrderStatus.PARTIALLY_FILLED) ∧
          o.type = OrderType.LIMIT ∧ o.symbol = symbol ∧
          o.side = OrderSide.SELL ∧ o.price ≤ t.bestBid ∧
          (isFutures exchange = true ∨ t.bidQty > 0)) ∧
      List.Sorted (fun a b : OrderData => a.price ≤ b.price) fillSell ∧
      (∀ o : OrderData, o ∈ fillBuy ↔
        o ∈ co ∧ o.exchange = exchange ∧
          (o.status = OrderStatus.CREATED ∨
            o.status = OrderStatus.PARTIALLY_FILLED) ∧
          o.type = OrderType.LIMIT ∧ o.symbol = symbol ∧
          o.side = OrderSide.BUY ∧ o.price ≥ t.bestAsk ∧
          (isFutures exchange = true ∨ t.askQty > 0)) ∧
      List.Sorted (fun a b : OrderData => b.price ≤ a.price) fillBuy := by
  have hkey : symbol ∈ batch.map Prod.fst :=
    List.mem_map.mpr ⟨(symbol, t), hmem, rfl⟩
  refine ⟨_, _, _, _, _, _, rfl, rfl, rfl, rfl, ?_, ?_, ?_, ?_, ?_, ?_, ?_, ?_⟩
  · intro p
    rw [List.mem_insertionSort, List.mem_filter, List.mem_filter,
      List.mem_filter, mem_getPositionsBySymbols]
    simp only [decide_eq_true_eq]
    constructor
    · rintro ⟨⟨⟨⟨hin, _⟩, hex, hst⟩, hsym⟩, hside, hliq⟩
      exact ⟨hin, hex, hst, hsym, hside, hliq⟩
    · rintro ⟨hin, hex, hst, hsym, hside, hliq⟩
      exact ⟨⟨⟨⟨hin, hsym.symm ▸ hkey⟩, hex, hst⟩, hsym⟩, hside, hliq⟩
  · exact List.sorted_insertionSort _ _
  · intro p
    rw [List.mem_insertionSort, List.mem_filter, List.mem_filter,
      List.mem_filter, mem_getPositionsBySymbols]
    simp only [decide_eq_true_eq]
    constructor
    · rintro ⟨⟨⟨⟨hin, _⟩, hex, hst⟩, hsym⟩, hside, hliq⟩
      exact ⟨hin, hex, hst, hsym, hside, hliq⟩
    · rintro ⟨hin, hex, hst, hsym, hside, hliq⟩
      exact ⟨⟨⟨⟨hin, hsym.symm ▸ hkey⟩, hex, hst⟩, hsym⟩, hside, hliq⟩
  · exact List.sorted_insertionSort _ _
  · intro o
    rw [List.mem_insertionSort, List.mem_filter, List.mem_filter,
      List.mem_filter, mem_getOrdersBySymbols]
    simp only [decide_eq_true_eq]
    constructor
    · rintro ⟨⟨⟨⟨hin, _⟩, hex, hst, hty⟩, hsym⟩, hside, hpr, hq⟩
      exact ⟨hin, hex, hst, hty, hsym, hside, hpr, hq⟩
    · rintro ⟨hin, hex, hst, hty, hsym, hside, hpr, hq⟩
      exact ⟨⟨⟨⟨hin, hsym.symm ▸ hkey⟩, hex, hst, hty⟩, hsym⟩, hside, hpr, hq⟩
  · exact List.sorted_insertionSort _ _
  · intro o
    rw [List.mem_insertionSort, List.mem_filter, List.mem_filter,
      List.mem_filter, mem_getOrdersBySymbols]
    simp only [decide_eq_true_eq]
    constructor
    · rintro ⟨⟨⟨⟨hin, _⟩, hex, hst, hty⟩, hsym⟩, hside, hpr, hq⟩
      exact ⟨hin, hex, hst, hty, hsym, hside, hpr, hq⟩
    · rintro ⟨hin, hex, hst, hty, hsym, hside, hpr, hq⟩
      exact ⟨⟨⟨⟨hin, hsym.symm ▸ hkey⟩, hex, hst, hty⟩, hsym⟩, hside, hpr, hq⟩
  · exact List.sorted_insertionSort _ _

theorem processTickerQueue_order_of_work_witness :
    ∃ (P : List OrderData) (F : List LocalPosition)
      (liqLong liqShort : List LocalPosition)
      (fillSell fillBuy : List OrderData),
      P = (getOrdersBySymbols ([("BTCUSDT", c6Tick)].map Prod.fst)
        [c6Order]).filter (fun o =>
        decide (o.exchange = ExchangeEnum.binanceUsdm ∧
          (o.status = OrderStatus.CREATED ∨
            o.status = OrderStatus.PARTIALLY_FILLED) ∧
          o.type = OrderType.LIMIT)) ∧
      F = (getPositionsBySymbols ([("BTCUSDT", c6Tick)].map Prod.fst)
        [c6Long]).filter (fun p =>
        decide (p.exchange = ExchangeEnum.binanceUsdm ∧
          p.status = PositionStatus.new)) ∧
      processTickerQueue ExchangeEnum.binanceUsdm [c6Order] [c6Long]
          [("BTCUSDT", c6Tick)] =
        ([("BTCUSDT", c6Tick)].map (fun st =>
          tickActions ExchangeEnum.binanceUsdm P F st.1 st.2)).flatten ∧
      tickActions ExchangeEnum.binanceUsdm P F "BTCUSDT" c6Tick =
        (liqLong ++ liqShort).map EngineAction.liquidate ++
          (fillSell ++ fillBuy).map (fun o => EngineAction.fill o c6Tick) ∧
      (∀ p : LocalPosition, p ∈ liqLong ↔
        p ∈ [c6Long] ∧ p.exchange = ExchangeEnum.binanceUsdm ∧
          p.status = PositionStatus.new ∧ p.symbol = "BTCUSDT" ∧
          p.positionSide = PositionSide.long ∧
          p.liquidationPrice ≥ c6Tick.bestBid) ∧
      List.Sorted (fun a b : LocalPosition =>
        a.liquidationPrice ≤ b.liquidationPrice) liqLong ∧
      (∀ p : LocalPosition, p ∈ liqShort ↔
        p ∈ [c6Long] ∧ p.exchange = ExchangeEnum.binanceUsdm ∧
          p.status = PositionStatus.new ∧ p.symbol = "BTCUSDT" ∧
          p.positionSide = PositionSide.short ∧
          p.liquidationPrice ≤ c6Tick.bestAsk) ∧
      List.Sorted (fun a b : LocalPosition =>
        b.liquidationPrice ≤ a.liquidationPrice) liqShort ∧
      (∀ o : OrderData, o ∈ fillSell ↔
        o ∈ [c6Order] ∧ o.exchange = ExchangeEnum.binanceUsdm ∧
          (o.status = OrderStatus.CREATED ∨
            o.status = OrderStatus.PARTIALLY_FILLED) ∧
          o.type = OrderType.LIMIT ∧ o.symbol = "BTCUSDT" ∧
          o.side = OrderSide.SELL ∧ o.price ≤ c6Tick.bestBid ∧
          (isFutures ExchangeEnum.binanceUsdm = true ∨ c6Tick.bidQty > 0)) ∧
      List.Sorted (fun a b : OrderData => a.price ≤ b.price) fillSell ∧
      (∀ o : OrderData, o ∈ fillBuy ↔
        o ∈ [c6Order] ∧ o.exchange = ExchangeEnum.binanceUsdm ∧
          (o.status = OrderStatus.CREATED ∨
            o.status = OrderStatus.PARTIALLY_FILLED) ∧
          o.type = OrderType.LIMIT ∧ o.symbol = "BTCUSDT" ∧
          o.side = OrderSide.BUY ∧ o.price ≥ c6Tick.bestAsk ∧
          (isFutures ExchangeEnum.binanceUsdm = true ∨ c6Tick.askQty > 0)) ∧
      List.Sorted (fun a b : OrderData => b.price ≤ a.price) fillBuy :=
  processTickerQueue_order_of_work ExchangeEnum.binanceUsdm [c6Order] [c6Long]
    [("BTCUSDT", c6Tick)] "BTCUSDT" c6Tick (List.mem_singleton.mpr rfl)

/-- C5: cancelling an open (NEW or PARTIALLY_FILLED) LIMIT order succeeds
and, for spot, moves exactly the unfilled reservation from locked back to
free — `quoteAmount − filledQuoteAmount` of the quote asset for a BUY,
`amount − filledAmount` of the base asset for a SELL — touching no other
wallet row; for derivatives no balance moves; the order leaves the
projection and its watch-set entry is dropped. -/
theorem processCancelOrder_releases_reservation (env : Env) (userId : String)
    (s : MState) (order : OrderData) (sym : SymbolInfo)
    (hfind : s.ordersDb.find? (fun o =>
      decide (o.externalId = order.externalId ∧ o.user = userId)) = some order)
    (hopen : order.status = OrderStatus.CREATED ∨
      order.status = OrderStatus.PARTIALLY_FILLED)
    (hlim : order.type = OrderType.LIMIT)
    (hsym : env.getSymbol order.symbol order.exchange = some sym) :
    (processCancelOrder env order.externalId userId false s).1 =
      .ok ⟨"canceled"⟩ ∧
    (isFutures order.exchange = false →
      ∀ w, lookupWallet s.wallets userId
          (if order.side = OrderSide.BUY then sym.quoteAssetName
            else sym.baseAssetName) = some w →
        lookupWallet (processCancelOrder env order.externalId userId
            false s).2.wallets userId
          (if order.side = OrderSide.BUY then sym.quoteAssetName
            else sym.baseAssetName) =
          some { w with
            free := w.free + (if order.side = OrderSide.BUY then
              order.quoteAmount - order.filledQuoteAmount
              else order.amount - order.filledAmount),
            locked := w.locked - (if order.side = OrderSide.BUY then
              order.quoteAmount - order.filledQuoteAmount
              else order.amount - order.filledAmount) } ∧
        (∀ u a, ¬(u = userId ∧ a = (if order.side = OrderSide.BUY then
            sym.quoteAssetName else sym.baseAssetName)) →
          lookupWallet (processCancelOrder env order.externalId userId
            false s).2.wallets u a = lookupWallet s.wallets u a)) ∧
    (isFutures order.exchange = true →
      (processCancelOrder env order.externalId userId false s).2.wallets =
        s.wallets) ∧
    (∀ o ∈ (processCancelOrder env order.externalId userId
        false s).2.currentOrders,
      ¬(o.symbol = order.symbol ∧ o.externalId = order.externalId)) ∧
    WatchId.order order.externalId ∉
      (alGet (processCancelOrder env order.externalId userId false s).2.watch
        (order.symbol, order.exchange)).getD [] := by
  have hterm : ¬(order.status = OrderStatus.FILLED ∨
      order.status = OrderStatus.CANCELED ∨
      order.status = OrderStatus.EXPIRED) := by
    rcases hopen with h | h <;> simp [h]
  have hres : processCancelOrder env order.externalId userId false s =
      (.ok ⟨"canceled"⟩,
        -- state after the four updates
        (let s1 := { s with ordersDb :=
            dbSetOrderStatus s.ordersDb order.id OrderStatus.CANCELED }
        let amount : ℚ := if isFutures order.exchange then 0
          else (if order.side = OrderSide.BUY then
            order.quoteAmount - order.filledQuoteAmount
            else order.amount - order.filledAmount)
        let s2 := if amount ≠ 0 then
            { s1 with
              wallets := walletInc s1.wallets userId
                (if order.side = OrderSide.BUY then sym.quoteAssetName
                  else sym.baseAssetName) amount (-amount) }
          else s1
        let s3 := { s2 with
          watch := watchRemoveHolder s2.watch (order.symbol, order.exchange)
            (.order order.externalId) }
        { s3 with
          currentOrders := removeOrderProj s3.currentOrders order.symbol
            order.externalId })) := by
    unfold processCancelOrder
    rw [hfind]
    simp only [hterm, if_neg, if_false, hsym, hlim]
    simp [hlim]
  rw [hres]
  refine ⟨rfl, ?_, ?_, ?_, ?_⟩
  · intro hfut w hw
    by_cases hz : (if order.side = OrderSide.BUY then
        order.quoteAmount - order.filledQuoteAmount
        else order.amount - order.filledAmount) = 0
    · refine ⟨?_, ?_⟩
      · cases w with
        | mk wu wa wf wl =>
          simp [hfut, hz]
          exact hw
      · intro u a hne
        simp [hfut, hz]
    · refine ⟨?_, ?_⟩
      · simp [hfut, hz, lookupWallet_walletInc_self, hw]
        exact (sub_eq_add_neg _ _).symm
      · intro u a hne
        simp only [hfut, Bool.false_eq_true, if_false, ne_eq, hz,
          not_false_eq_true, if_true]
        exact lookupWallet_walletInc_ne s.wallets userId _ u a _ _ hne
  · intro hfut
    simp [hfut]
  · intro o ho
    exact removeOrderProj_not_mem _ _ _ o (by simpa using ho)
  · exact watchRemoveHolder_not_mem _ _ _

theorem processCancelOrder_releases_reservation_witness :
    (processCancelOrder (envWith 0 (some btcUsdt) none) c5Order.externalId
        "u1" false c5State).1 = .ok ⟨"canceled"⟩ ∧
    lookupWallet (processCancelOrder (envWith 0 (some btcUsdt) none)
        c5Order.externalId "u1" false c5State).2.wallets "u1"
      (if c5Order.side = OrderSide.BUY then btcUsdt.quoteAssetName
        else btcUsdt.baseAssetName) =
      some ⟨"u1", "USDT",
        10 + (c5Order.quoteAmount - c5Order.filledQuoteAmount),
        400 - (c5Order.quoteAmount - c5Order.filledQuoteAmount)⟩ := by
  have h := processCancelOrder_releases_reservation
    (envWith 0 (some btcUsdt) none) "u1" c5State c5Order btcUsdt rfl
    (Or.inr rfl) rfl rfl
  exact ⟨h.1, ((h.2.1 rfl) ⟨"u1", "USDT", 10, 400⟩ rfl).1⟩

/-- C8 (amended): a cancel addressed by externalId whose order does not exist
for the user, or is terminal (FILLED / CANCELED / EXPIRED), fails with
HTTP 400 and leaves the state unchanged; a cancel addressed by `_id` behaves
the same when an order with that id exists (it defers to the externalId
path), but when **no** order with that id exists at all the call raises an
uncaught TypeError (surfaced as HTTP 500, not 400) — state still
unchanged. -/
theorem cancelOrder_unknown_or_terminal_rejected (env : Env)
    (key secret eid : String) (oid : ℕ) (uid : String) (s : MState)
    (huser : env.findUser key secret = some uid) :
    (s.ordersDb.find? (fun o =>
        decide (o.externalId = eid ∧ o.user = uid)) = none →
      cancelOrderByKeySecretExternalIdAndSymbol env key secret eid false s =
        (.error (.http "Unknown order" 400), s)) ∧
    (∀ o, s.ordersDb.find? (fun o =>
        decide (o.externalId = eid ∧ o.user = uid)) = some o →
      (o.status = OrderStatus.FILLED ∨ o.status = OrderStatus.CANCELED ∨
        o.status = OrderStatus.EXPIRED) →
      cancelOrderByKeySecretExternalIdAndSymbol env key secret eid false s =
        (.error (.http "Unknown order" 400), s)) ∧
    (s.ordersDb.find? (fun o => decide (o.id = oid)) = none →
      cancelOrderByKeySecretIdAndSymbol env key secret oid false s =
        (.error (.typeErr "Cannot read properties of null reading externalId"),
          s)) ∧
    (∀ o, s.ordersDb.find? (fun o => decide (o.id = oid)) = some o →
      cancelOrderByKeySecretIdAndSymbol env key secret oid false s =
        processCancelOrder env o.externalId uid false s) := by
  refine ⟨?_, ?_, ?_, ?_⟩
  · intro hnone
    unfold cancelOrderByKeySecretExternalIdAndSymbol processCancelOrder
    rw [huser]
    dsimp only
    rw [hnone]
  · intro o hsome hterm
    unfold cancelOrderByKeySecretExternalIdAndSymbol processCancelOrder
    rw [huser]
    dsimp only
    rw [hsome]
    simp [hterm]
  · intro hnone
    unfold cancelOrderByKeySecretIdAndSymbol
    rw [huser]
    dsimp only
    rw [hnone]
  · intro o hsome
    unfold cancelOrderByKeySecretIdAndSymbol
    rw [huser]
    dsimp only
    rw [hsome]

theorem cancelOrder_unknown_or_terminal_rejected_witness :
    cancelOrderByKeySecretExternalIdAndSymbol (envWith 0 (some btcUsdt) none)
        "k" "s" "c8" false c8State =
      (.error (.http "Unknown order" 400), c8State) := by
  have h := cancelOrder_unknown_or_terminal_rejected
    (envWith 0 (some btcUsdt) none) "k" "s" "c8" 99 "u1" c8State rfl
  exact h.2.1 c8Order rfl (Or.inl rfl)

/-- C8, counterexample to the claim as stated: cancelling by an `_id` that
matches no order crashes with a TypeError (`order.externalId` on `null`)
instead of failing with HTTP 400; the state is unchanged. -/
theorem cancelOrderById_unknown_id_raises_type_error :
    cancelOrderByKeySecretIdAndSymbol (envWith 0 (some btcUsdt) none) "k" "s"
        99 false c8State =
      (.error (.typeErr "Cannot read properties of null reading externalId"),
        c8State) ∧
    (Except.error (SvcError.typeErr
        "Cannot read properties of null reading externalId") :
          Except SvcError CancelResult) ≠
      Except.error (SvcError.http "Unknown order" 400) := by
  refine ⟨rfl, by simp⟩

/-- C10: every createOrder invocation — including a plain non-marketable
LIMIT — needs a current price: when the cached per-symbol price is absent,
falsy or stale and the external latest-price lookup returns no price, the
call fails with HTTP 400 and no order is created and no balance, position or
projection entry changes. -/
theorem createOrder_requires_latest_price (env : Env) (order : CreateOrderDto)
    (s : MState) (uid : String) (sym : SymbolInfo)
    (huser : env.findUser order.key order.secret = some uid)
    (hsym : env.getSymbol order.symbol order.exchange = some sym)
    (hmiss : jsFalsy ((alGet s.symbolPrice
        (order.symbol, order.exchange)).bind id) = true ∨
      env.now - (alGet s.tickerTimeSym (order.symbol, order.exchange)).getD 0 >
        newDataLimit)
    (hext : env.latestPriceData order.symbol order.exchange = none) :
    (createOrder env order s).1 =
      .error (.http "Failed to get latest price from exchange" 400) ∧
    (createOrder env order s).2.wallets = s.wallets ∧
    (createOrder env order s).2.ordersDb = s.ordersDb ∧
    (createOrder env order s).2.positionsDb = s.positionsDb ∧
    (createOrder env order s).2.currentOrders = s.currentOrders ∧
    (createOrder env order s).2.currentPositions = s.currentPositions := by
  unfold createOrder
  rw [huser]
  dsimp only
  rw [hsym]
  dsimp only
  by_cases hfut : isFutures order.exchange = true
  · rw [if_pos hfut]
    cases hf : s.leverages.find? (fun l => decide (l.user = uid ∧
        l.symbol = order.symbol ∧ l.side = order.positionSide)) with
    | none =>
      dsimp only
      have hfetch := getLatestPrice_fetch_none env order.symbol order.exchange
        { s with leverages := s.leverages ++
          [⟨uid, order.symbol, order.positionSide, 1, false⟩] } hmiss hext
      rw [hfetch]
      simp
    | some l =>
      dsimp only
      rw [getLatestPrice_fetch_none env order.symbol order.exchange s hmiss
        hext]
      simp
  · rw [if_neg hfut]
    dsimp only
    rw [getLatestPrice_fetch_none env order.symbol order.exchange s hmiss hext]
    simp

theorem createOrder_requires_latest_price_witness :
    (createOrder (envWith 0 (some btcUsdt) none) c10Dto emptyState).1 =
      .error (.http "Failed to get latest price from exchange" 400) ∧
    (createOrder (envWith 0 (some btcUsdt) none) c10Dto
        emptyState).2.ordersDb = emptyState.ordersDb ∧
    (createOrder (envWith 0 (some btcUsdt) none) c10Dto
        emptyState).2.wallets = emptyState.wallets := by
  have h := createOrder_requires_latest_price (envWith 0 (some btcUsdt) none)
    c10Dto emptyState "u1" btcUsdt rfl rfl (Or.inl rfl) rfl
  exact ⟨h.1, h.2.2.1, h.2.1⟩

/-- C9 (amended): a derivatives createOrder by a user in hedge mode whose
`positionSide` is literally BOTH fails with HTTP 400 before any balance or
order mutation; an **absent** positionSide is not rejected (see the
counterexample). -/
theorem createOrder_hedge_both_rejected (env : Env) (order : CreateOrderDto)
    (s : MState) (uid : String) (sym : SymbolInfo) (p : ℚ)
    (huser : env.findUser order.key order.secret = some uid)
    (hsym : env.getSymbol order.symbol order.exchange = some sym)
    (hfut : isFutures order.exchange = true)
    (hcp : (alGet s.symbolPrice (order.symbol, order.exchange)).bind id =
      some p)
    (hp0 : ¬p = 0)
    (hfresh : ¬env.now - (alGet s.tickerTimeSym
      (order.symbol, order.exchange)).getD 0 > newDataLimit)
    (hhedge : (alGet s.hedges uid).getD false = true)
    (hboth : order.positionSide = some PositionSide.both) :
    (createOrder env order s).1 =
      .error (.http "Position side must be specified in hedge mode" 400) ∧
    (createOrder env order s).2.wallets = s.wallets ∧
    (createOrder env order s).2.ordersDb = s.ordersDb ∧
    (createOrder env order s).2.positionsDb = s.positionsDb ∧
    (createOrder env order s).2.currentOrders = s.currentOrders ∧
    (createOrder env order s).2.currentPositions = s.currentPositions := by
  unfold createOrder
  rw [huser]
  dsimp only
  rw [hsym]
  dsimp only
  rw [if_pos hfut]
  cases hf : s.leverages.find? (fun l => decide (l.user = uid ∧
      l.symbol = order.symbol ∧ l.side = order.positionSide)) with
  | none =>
    dsimp only
    have hfetch := getLatestPrice_cached env order.symbol order.exchange
      { s with leverages := s.leverages ++
        [⟨uid, order.symbol, order.positionSide, 1, false⟩] } p hcp hp0 hfresh
    rw [hfetch]
    dsimp only
    rw [if_pos hfut]
    simp [hhedge, hboth]
  | some l =>
    dsimp only
    rw [getLatestPrice_cached env order.symbol order.exchange s p hcp hp0
      hfresh]
    dsimp only
    rw [if_pos hfut]
    simp [hhedge, hboth]

theorem createOrder_hedge_both_rejected_witness :
    (createOrder (envWith 0 (some btcUsdt) (some 50000)) c9BothDto
        c9State).1 =
      .error (.http "Position side must be specified in hedge mode" 400) ∧
    (createOrder (envWith 0 (some btcUsdt) (some 50000)) c9BothDto
        c9State).2.ordersDb = c9State.ordersDb ∧
    (createOrder (envWith 0 (some btcUsdt) (some 50000)) c9BothDto
        c9State).2.wallets = c9State.wallets := by
  have h := createOrder_hedge_both_rejected
    (envWith 0 (some btcUsdt) (some 50000)) c9BothDto c9State "u1" btcUsdt
    50000 rfl rfl rfl rfl (by norm_num) (by decide) rfl rfl
  exact ⟨h.1, h.2.2.1, h.2.1⟩

/-- C9, counterexample to the claim as stated: with hedge mode on, a
derivatives LIMIT BUY whose `positionSide` is absent (undefined, hence
neither LONG nor SHORT) is **not** rejected with the hedge-mode 400 — the
order is accepted and registered as NEW (the guard compares only against
the literal BOTH). -/
theorem createOrder_hedge_absent_positionSide_accepted :
    (alGet c9State.hedges "u1").getD false = true ∧
    c9Dto.positionSide = none ∧
    (createOrder (envWith 0 (some btcUsdt) (some 50000)) c9Dto c9State).1 =
      .ok ⟨0, OrderStatus.CREATED⟩ ∧
    (Except.ok (⟨0, OrderStatus.CREATED⟩ : CreateOrderResponse) :
        Except SvcError CreateOrderResponse) ≠
      Except.error (SvcError.http
        "Position side must be specified in hedge mode" 400) := by
  refine ⟨rfl, rfl, ?_, by simp⟩
  norm_num +decide [createOrder, createLimitOrder, getLatestPriceInExchange,
    jsFalsy, walletFreeBelow, lookupWallet, getPositionsBySymbols, alGet,
    alSet, alDelete, watchAdd, setOrderProj, increaseUserBalance, walletInc,
    getUserFee, isFutures, isCoinm, newDataLimit, emptyState, envWith,
    btcUsdt, c9Dto, c9State, usdmMakerFee, List.find?, List.filter,
    List.foldl, List.flatten]

theorem processFuturesPosition_ordersDb_head (env : Env) (order0 : OrderData)
    (lev : ℚ) (sym : SymbolInfo) (s : MState) (rest : List OrderData)
    (hdb : s.ordersDb = order0 :: rest) :
    (processFuturesPosition env order0 lev sym s).ordersDb.head?.map
      (fun o => (o.status, o.price, o.avgFilledPrice)) =
      some (order0.status, order0.price, order0.avgFilledPrice) := by
  unfold processFuturesPosition
  dsimp only
  cases hcur : (getPositionsBySymbols [order0.symbol]
      s.currentPositions).find? (fun p => decide (p.user = order0.user ∧
        ((alGet s.hedges order0.user).getD false = true →
          some p.positionSide = order0.positionSide))) with
  | none => simp [addPositionToWatchList, hdb]
  | some cur =>
    dsimp only
    repeat' split
    all_goals simp [settleCurrentTail_ordersDb, addPositionToWatchList,
      dbUpdateOrderByExternalId, hdb]

theorem processMarketOrder_head (env : Env) (order : CreateOrderDto)
    (userId : String) (leverage : ℚ) (s : MState) (symbol : SymbolInfo) (p : ℚ)
    (hsym : env.getSymbol order.symbol order.exchange = some symbol)
    (hcp : (alGet s.symbolPrice (order.symbol, order.exchange)).bind id = some p)
    (hp0 : ¬p = 0)
    (hfresh : ¬env.now -
      (alGet s.tickerTimeSym (order.symbol, order.exchange)).getD 0 >
        newDataLimit) :
    (processMarketOrder env order userId leverage s).1 =
        .ok ⟨s.nextId, OrderStatus.FILLED⟩ ∧
      (processMarketOrder env order userId leverage s).2.ordersDb.head?.map
        (fun o => (o.status, o.price, o.avgFilledPrice)) =
        some (OrderStatus.FILLED, p, p) := by
  unfold processMarketOrder
  rw [getLatestPrice_cached env order.symbol order.exchange s p hcp hp0 hfresh]
  dsimp only
  rw [hsym]
  dsimp only
  split
  · refine ⟨rfl, ?_⟩
    exact processFuturesPosition_ordersDb_head env _ leverage symbol _ _ rfl
  · exact ⟨rfl, rfl⟩

theorem createLimitOrder_head (env : Env) (order : CreateOrderDto)
    (userId : String) (s : MState) (symbol : SymbolInfo)
    (hsym : env.getSymbol order.symbol order.exchange = some symbol) :
    (createLimitOrder env order userId s).1 =
        .ok ⟨s.nextId, OrderStatus.CREATED⟩ ∧
      (createLimitOrder env order userId s).2.ordersDb.head?.map
        (fun o => (o.status, o.price)) =
        some (OrderStatus.CREATED, order.price) := by
  unfold createLimitOrder
  rw [hsym]
  exact ⟨rfl, rfl⟩

set_option maxHeartbeats 3200000 in
/-- C3: a LIMIT createOrder whose price crosses the current price is promoted
to MARKET and filled immediately at the current price (result status FILLED,
persisted head order has status FILLED and price = avgFilledPrice = current
price); a non-crossing limit is registered with status NEW (CREATED) at its
own limit price. -/
theorem createOrder_marketable_limit_promotion
    (env : Env) (order : CreateOrderDto) (s : MState) (userId : String)
    (symbol : SymbolInfo) (p : ℚ)
    (huser : env.findUser order.key order.secret = some userId)
    (hsym : env.getSymbol order.symbol order.exchange = some symbol)
    (hcp : (alGet s.symbolPrice (order.symbol, order.exchange)).bind id = some p)
    (hp0 : ¬p = 0)
    (hfresh : ¬env.now -
      (alGet s.tickerTimeSym (order.symbol, order.exchange)).getD 0 >
        newDataLimit)
    (htype : order.type = OrderType.LIMIT) :
    (((order.side = .BUY ∧ order.price > p) ∨
        (order.side = .SELL ∧ order.price < p)) →
      ∀ r, (createOrder env order s).1 = .ok r →
        r.status = OrderStatus.FILLED ∧
        (createOrder env order s).2.ordersDb.head?.map
          (fun o => (o.status, o.price, o.avgFilledPrice)) =
          some (OrderStatus.FILLED, p, p)) ∧
    ((¬((order.side = .BUY ∧ order.price > p) ∨
        (order.side = .SELL ∧ order.price < p))) →
      ∀ r, (createOrder env order s).1 = .ok r →
        r.status = OrderStatus.CREATED ∧
        (createOrder env order s).2.ordersDb.head?.map
          (fun o => (o.status, o.price)) =
          some (OrderStatus.CREATED, order.price)) := by
  by_cases hcross : (order.side = OrderSide.BUY ∧ order.price > p) ∨
      (order.side = OrderSide.SELL ∧ order.price < p)
  · refine ⟨fun _ r hr => ?_, fun hn => absurd hcross hn⟩
    have hmk : order.type = OrderType.MARKET ∨
        (order.side = OrderSide.BUY ∧ order.price > p) ∨
        (order.side = OrderSide.SELL ∧ order.price < p) := Or.inr hcross
    have H : (∃ e, (createOrder env order s).1 = Except.error e) ∨
        ((createOrder env order s).1 =
            Except.ok ⟨s.nextId, OrderStatus.FILLED⟩ ∧
          (createOrder env order s).2.ordersDb.head?.map
            (fun o => (o.status, o.price, o.avgFilledPrice)) =
            some (OrderStatus.FILLED, p, p)) := by
      unfold createOrder
      rw [huser]
      dsimp only
      rw [hsym]
      dsimp only
      by_cases hfut : isFutures order.exchange = true
      · rw [if_pos hfut]
        cases hf : s.leverages.find? (fun l => decide (l.user = userId ∧
            l.symbol = order.symbol ∧ l.side = order.positionSide)) with
        | none =>
          dsimp only
          rw [getLatestPrice_cached env order.symbol order.exchange
            { s with leverages := s.leverages ++
              [⟨userId, order.symbol, order.positionSide, 1, false⟩] }
            p hcp hp0 hfresh]
          dsimp only
          rw [if_pos hmk]
          repeat' split
          all_goals first
            | exact Or.inl ⟨_, rfl⟩
            | exact Or.inr (processMarketOrder_head env _ userId _ _ symbol p
                hsym hcp hp0 hfresh)
            | simp_all
        | some l =>
          dsimp only
          rw [getLatestPrice_cached env order.symbol order.exchange s
            p hcp hp0 hfresh]
          dsimp only
          rw [if_pos hmk]
          repeat' split
          all_goals first
            | exact Or.inl ⟨_, rfl⟩
            | exact Or.inr (processMarketOrder_head env _ userId _ _ symbol p
                hsym hcp hp0 hfresh)
            | simp_all
      · rw [if_neg hfut]
        dsimp only
        rw [getLatestPrice_cached env order.symbol order.exchange s
          p hcp hp0 hfresh]
        dsimp only
        rw [if_pos hmk]
        repeat' split
        all_goals first
          | exact Or.inl ⟨_, rfl⟩
          | exact Or.inr (processMarketOrder_head env _ userId _ _ symbol p
              hsym hcp hp0 hfresh)
          | simp_all
    rcases H with ⟨e, he⟩ | ⟨h1, h2⟩
    · rw [he] at hr
      exact absurd hr (by simp)
    · rw [h1] at hr
      injection hr with h3
      subst h3
      exact ⟨rfl, h2⟩
  · refine ⟨fun hc _ _ => absurd hc hcross, fun _ r hr => ?_⟩
    have hnmk : ¬(order.type = OrderType.MARKET ∨
        (order.side = OrderSide.BUY ∧ order.price > p) ∨
        (order.side = OrderSide.SELL ∧ order.price < p)) := by
      rintro (hA | hBC)
      · rw [htype] at hA
        exact absurd hA (by simp)
      · exact hcross hBC
    have H : (∃ e, (createOrder env order s).1 = Except.error e) ∨
        ((createOrder env order s).1 =
            Except.ok ⟨s.nextId, OrderStatus.CREATED⟩ ∧
          (createOrder env order s).2.ordersDb.head?.map
            (fun o => (o.status, o.price)) =
            some (OrderStatus.CREATED, order.price)) := by
      unfold createOrder
      rw [huser]
      dsimp only
      rw [hsym]
      dsimp only
      by_cases hfut : isFutures order.exchange = true
      · rw [if_pos hfut]
        cases hf : s.leverages.find? (fun l => decide (l.user = userId ∧
            l.symbol = order.symbol ∧ l.side = order.positionSide)) with
        | none =>
          dsimp only
          rw [getLatestPrice_cached env order.symbol order.exchange
            { s with leverages := s.leverages ++
              [⟨userId, order.symbol, order.positionSide, 1, false⟩] }
            p hcp hp0 hfresh]
          dsimp only
          rw [if_neg hnmk]
          repeat' split
          all_goals first
            | exact Or.inl ⟨_, rfl⟩
            | exact Or.inr (createLimitOrder_head env _ userId _ symbol hsym)
            | exact (‹_ ∨ _›).elim (fun h => absurd h (by simp))
                (fun h => absurd (Or.inr h) hnmk)
            | simp_all
        | some l =>
          dsimp only
          rw [getLatestPrice_cached env order.symbol order.exchange s
            p hcp hp0 hfresh]
          dsimp only
          rw [if_neg hnmk]
          repeat' split
          all_goals first
            | exact Or.inl ⟨_, rfl⟩
            | exact Or.inr (createLimitOrder_head env _ userId _ symbol hsym)
            | exact (‹_ ∨ _›).elim (fun h => absurd h (by simp))
                (fun h => absurd (Or.inr h) hnmk)
            | simp_all
      · rw [if_neg hfut]
        dsimp only
        rw [getLatestPrice_cached env order.symbol order.exchange s
          p hcp hp0 hfresh]
        dsimp only
        rw [if_neg hnmk]
        repeat' split
        all_goals first
          | exact Or.inl ⟨_, rfl⟩
          | exact Or.inr (createLimitOrder_head env _ userId _ symbol hsym)
          | exact (‹_ ∨ _›).elim (fun h => absurd h (by simp))
              (fun h => absurd (Or.inr h) hnmk)
          | simp_all
    rcases H with ⟨e, he⟩ | ⟨h1, h2⟩
    · rw [he] at hr
      exact absurd hr (by simp)
    · rw [h1] at hr
      injection hr with h3
      subst h3
      exact ⟨rfl, h2⟩

theorem createOrder_marketable_limit_promotion_witness :
    (c3Dto.side = OrderSide.BUY ∧ c3Dto.price > (50000 : ℚ)) ∧
    (⟨c3State.nextId, OrderStatus.FILLED⟩ : CreateOrderResponse).status =
      OrderStatus.FILLED ∧
    (createOrder (envWith 0 (some btcUsdt) none) c3Dto
        c3State).2.ordersDb.head?.map
      (fun o => (o.status, o.price, o.avgFilledPrice)) =
      some (OrderStatus.FILLED, 50000, 50000) := by
  have hr : (createOrder (envWith 0 (some btcUsdt) none) c3Dto c3State).1 =
      .ok ⟨c3State.nextId, OrderStatus.FILLED⟩ := by
    norm_num +decide [createOrder, processMarketOrder, getLatestPriceInExchange,
      jsFalsy, walletFreeBelow, lookupWallet, getPositionsBySymbols, alGet,
      alSet, alDelete, increaseUserBalance, walletInc, getUserFee, isFutures,
      isCoinm, newDataLimit, emptyState, envWith, btcUsdt, c3Dto, c3State,
      spotMakerFee, List.find?, List.filter, List.foldl, List.flatten]
  have h := createOrder_marketable_limit_promotion
    (envWith 0 (some btcUsdt) none) c3Dto c3State "u1" btcUsdt 50000
    rfl rfl rfl (by norm_num) (by decide) rfl
  exact ⟨⟨rfl, by norm_num [c3Dto]⟩,
    (h.1 (Or.inl ⟨rfl, by norm_num [c3Dto]⟩) _ hr).1,
    (h.1 (Or.inl ⟨rfl, by norm_num [c3Dto]⟩) _ hr).2⟩

/-- A losing derivatives round-trip drives the USDT wallet row negative:
opening a LONG with the entire free balance and closing it after the price
fell leaves free = -3753/25 < 0, because the balance floor in
increaseUserBalance is commented out in the source. -/
theorem createOrder_close_drives_free_negative :
    (createOrder (envWith 0 (some btcUsdt) (some 50000)) c2Buy c2State).1 =
      .ok ⟨0, OrderStatus.FILLED⟩ ∧
    (createOrder (envWith 60000 (some btcUsdt) (some 30000)) c2Sell
        (createOrder (envWith 0 (some btcUsdt) (some 50000)) c2Buy
          c2State).2).1 =
      .ok ⟨2, OrderStatus.FILLED⟩ ∧
    lookupWallet
        (createOrder (envWith 60000 (some btcUsdt) (some 30000)) c2Sell
          (createOrder (envWith 0 (some btcUsdt) (some 50000)) c2Buy
            c2State).2).2.wallets "u1" "USDT" =
      some ⟨"u1", "USDT", -3753 / 25, 0⟩ ∧
    (-3753 / 25 : ℚ) < 0 := by
  refine ⟨?_, ?_, ?_, by norm_num⟩ <;>
    norm_num +decide [createOrder, processMarketOrder, processFuturesPosition,
      createPositionFromOrder, settleCurrentTail, addPositionToWatchList,
      dbUpdateOrderByExternalId, dbUpdatePositionByUuid, dbSetOrderStatus,
      lockLeverage, unLockLeverage, getLatestPriceInExchange, jsFalsy,
      walletFreeBelow, lookupWallet, getPositionsBySymbols, getUserFee,
      liquidationPrice, feePercOr, mathRound, numberEPSILON, alGet, alSet,
      alDelete, watchAdd, watchRemoveHolder, setOrderProj, removeOrderProj,
      setPositionProj, removePositionProj, increaseUserBalance, walletInc,
      isFutures, isCoinm, newDataLimit, emptyState, envWith, btcUsdt, c2Buy,
      c2Sell, c2State, usdmMakerFee, abs_zero, List.find?, List.filter,
      List.foldl, List.flatten]

theorem walletInc_reserve_nonneg (u a : String) (x : ℚ) (hx : 0 ≤ x) :
    ∀ (rows : List WalletRow) (b : WalletRow),
      lookupWallet rows u a = some b → x ≤ b.free →
      (∀ w ∈ rows, 0 ≤ w.free ∧ 0 ≤ w.locked) →
      ∀ w ∈ walletInc rows u a (-x) x, 0 ≤ w.free ∧ 0 ≤ w.locked := by
  intro rows
  induction rows with
  | nil =>
    intro b hb
    simp [lookupWallet] at hb
  | cons w ws ih =>
    intro b hb hbf hw
    by_cases hc : w.user = u ∧ w.asset = a
    · have hb' : b = w := by
        rw [lookupWallet, List.find?_cons_of_pos _ (by simpa using hc)] at hb
        exact (Option.some_inj.mp hb).symm
      intro w' hw'
      rw [walletInc, if_pos hc] at hw'
      rcases List.mem_cons.mp hw' with h | h
      · subst h
        have hww := hw w (List.mem_cons_self w ws)
        subst hb'
        exact ⟨by dsimp only; linarith, by dsimp only; linarith [hww.2]⟩
      · exact hw w' (List.mem_cons_of_mem _ h)
    · have hb' : lookupWallet ws u a = some b := by
        rw [lookupWallet, List.find?_cons_of_neg _ (by simpa using hc)] at hb
        exact hb
      intro w' hw'
      rw [walletInc, if_neg hc] at hw'
      rcases List.mem_cons.mp hw' with h | h
      · rw [h]
        exact hw w (List.mem_cons_self w ws)
      · exact ih b hb' hbf
          (fun ww hww => hw ww (List.mem_cons_of_mem _ hww)) w' h

/-- C2 (amended): along the spot LIMIT (non-marketable) path, createOrder
preserves nonnegativity of every wallet row: the reservation moved to locked
is bounded by the free balance checked beforehand.  (The unrestricted claim
is refuted by the derivatives counterexample: the balance floor in
increaseUserBalance is commented out in the source, so a losing close drives
free below zero.) -/
theorem createOrder_spot_limit_preserves_nonneg
    (env : Env) (order : CreateOrderDto) (s : MState) (userId : String)
    (symbol : SymbolInfo) (p : ℚ)
    (huser : env.findUser order.key order.secret = some userId)
    (hsym : env.getSymbol order.symbol order.exchange = some symbol)
    (hcp : (alGet s.symbolPrice (order.symbol, order.exchange)).bind id = some p)
    (hp0 : ¬p = 0)
    (hfresh : ¬env.now -
      (alGet s.tickerTimeSym (order.symbol, order.exchange)).getD 0 >
        newDataLimit)
    (hfut : isFutures order.exchange = false)
    (htype : order.type = OrderType.LIMIT)
    (hncross : ¬((order.side = OrderSide.BUY ∧ order.price > p) ∨
      (order.side = OrderSide.SELL ∧ order.price < p)))
    (hamt : 0 ≤ order.amount) (hprice : 0 ≤ order.price)
    (hw : ∀ w ∈ s.wallets, 0 ≤ w.free ∧ 0 ≤ w.locked) :
    ∀ w ∈ (createOrder env order s).2.wallets, 0 ≤ w.free ∧ 0 ≤ w.locked := by
  have hfut' : ¬isFutures order.exchange = true := by simp [hfut]
  have hnmk : ¬(order.type = OrderType.MARKET ∨
      (order.side = OrderSide.BUY ∧ order.price > p) ∨
      (order.side = OrderSide.SELL ∧ order.price < p)) := by
    rintro (hA | hBC)
    · rw [htype] at hA
      exact absurd hA (by simp)
    · exact hncross hBC
  unfold createOrder
  rw [huser]
  dsimp only
  rw [hsym]
  dsimp only
  rw [if_neg hfut']
  dsimp only
  rw [getLatestPrice_cached env order.symbol order.exchange s p hcp hp0 hfresh]
  dsimp only
  rw [if_neg hnmk]
  split
  · rename_i hfb
    exact absurd hfb hfut'
  · split
    · rename_i hbig
      exact hbig.elim (fun h => absurd h (by simp))
        (fun h => absurd h hncross)
    · split
      · exact hw
      · split
        · exact hw
        · rename_i hq hb
          unfold createLimitOrder
          rw [hsym]
          dsimp only
          rw [if_pos (show (!isFutures order.exchange) = true by simp [hfut])]
          by_cases hside : order.side = OrderSide.SELL
          · rw [if_pos hside]
            cases hlb : lookupWallet s.wallets userId symbol.baseAssetName with
            | none =>
              exact absurd ⟨hside, by simp [walletFreeBelow, hlb]⟩ hb
            | some b =>
              have hfree : order.amount ≤ b.free := by
                by_contra hlt
                exact hb ⟨hside, by
                  simp only [walletFreeBelow, hlb]
                  simpa using lt_of_not_le hlt⟩
              intro w' hw'
              refine walletInc_reserve_nonneg userId symbol.baseAssetName
                order.amount hamt s.wallets b hlb hfree hw w' ?_
              simpa [increaseUserBalance] using hw'
          · rw [if_neg hside]
            have hbuy : order.side = OrderSide.BUY := by
              cases hs : order.side
              · rfl
              · exact absurd hs hside
            cases hlb : lookupWallet s.wallets userId symbol.quoteAssetName with
            | none =>
              exact absurd ⟨hbuy, by simp [walletFreeBelow, hlb]⟩ hq
            | some b =>
              have hfree : order.amount * order.price ≤ b.free := by
                by_contra hlt
                exact hq ⟨hbuy, by
                  simp only [walletFreeBelow, hlb]
                  simpa using lt_of_not_le hlt⟩
              intro w' hw'
              refine walletInc_reserve_nonneg userId symbol.quoteAssetName
                (order.amount * order.price) (mul_nonneg hamt hprice) s.wallets
                b hlb hfree hw w' ?_
              simpa [increaseUserBalance] using hw'

theorem createOrder_spot_limit_preserves_nonneg_witness :
    (⟨"u1", "USDT", (600 : ℚ), 400⟩ : WalletRow) ∈
        (createOrder (envWith 0 (some btcUsdt) none) c2LimDto
          c3State).2.wallets ∧
    (0 : ℚ) ≤ (⟨"u1", "USDT", (600 : ℚ), 400⟩ : WalletRow).free ∧
    (0 : ℚ) ≤ (⟨"u1", "USDT", (600 : ℚ), 400⟩ : WalletRow).locked := by
  have hmem : (⟨"u1", "USDT", (600 : ℚ), 400⟩ : WalletRow) ∈
      (createOrder (envWith 0 (some btcUsdt) none) c2LimDto
        c3State).2.wallets := by
    norm_num +decide [createOrder, createLimitOrder, getLatestPriceInExchange,
      jsFalsy, walletFreeBelow, lookupWallet, alGet, alSet, watchAdd,
      setOrderProj, increaseUserBalance, walletInc, getUserFee, isFutures,
      isCoinm, newDataLimit, emptyState, envWith, btcUsdt, c2LimDto, c3State,
      spotMakerFee, List.find?, List.foldl]
  have h := createOrder_spot_limit_preserves_nonneg
    (envWith 0 (some btcUsdt) none) c2LimDto c3State "u1" btcUsdt 50000
    rfl rfl rfl (by norm_num) (by decide) (by decide) rfl
    (by norm_num +decide [c2LimDto])
    (by norm_num [c2LimDto]) (by norm_num [c2LimDto])
    (by
      intro w hmw
      simp only [c3State, List.mem_singleton] at hmw
      subst hmw
      exact ⟨by norm_num, le_refl 0⟩)
  exact ⟨hmem, h _ hmem⟩
